import Mathlib

/-!
Verification of the schema-aware validation and filter-normalization core of
an Odoo natural-language front end.  The Python source is shallowly embedded:
dynamic Python values become the inductive type `Val`, dict state becomes
association lists, the remote fetch becomes an explicit `Except` parameter,
and `datetime.strptime` is modelled after CPython's regex-based `_strptime`
for the format directives that occur in the source.
-/

set_option maxHeartbeats 1000000
set_option maxRecDepth 65536
set_option linter.unusedVariables false

namespace OdooMcp

/-- Dynamic Python values as they occur at the validator / normalizer
boundary.  Floats are modelled as exact rationals (`vfloat`).  Python tuples
and `datetime` objects are outside the modelled universe; dicts are modelled
as insertion-ordered association lists with distinct keys, as produced by the
Python dict literal. -/
inductive Val where
  | vnone : Val
  | vbool (b : Bool) : Val
  | vint (n : Int) : Val
  | vfloat (q : Rat) : Val
  | vstr (s : String) : Val
  | vlist (xs : List Val) : Val
  | vdict (entries : List (String × Val)) : Val

/-- Python truthiness (`bool(x)`): empty/zero/None are falsy. -/
def truthy : Val → Bool
  | .vnone => false
  | .vbool b => b
  | .vint n => n != 0
  | .vfloat q => q != 0
  | .vstr s => s != ""
  | .vlist xs => !xs.isEmpty
  | .vdict es => !es.isEmpty

/-- Python `x or y`: `x` if truthy, else `y`. -/
def pyOr (x y : Val) : Val :=
  if truthy x then x else y

/-- First-match association-list lookup; Python dicts have unique keys, so
this coincides with `dict.__getitem__`. -/
def dlookup (k : String) : List (String × Val) → Option Val
  | [] => none
  | p :: r => if p.1 = k then some p.2 else dlookup k r

/-- `dict.get(k)` with `None` default, as used on normalizer input dicts. -/
def dget (es : List (String × Val)) (k : String) : Val :=
  (dlookup k es).getD .vnone

/-- One ASCII decimal digit. -/
def digitVal (c : Char) : Option Nat :=
  if 48 ≤ c.toNat ∧ c.toNat ≤ 57 then some (c.toNat - 48) else none

/-- The character with code `48 + n % 10`; the decimal digit of `n`'s last
place. -/
def digitChar48 (n : Nat) : Char :=
  Char.ofNat (48 + n % 10)

/-- Python `str.strip` whitespace set (ASCII part). -/
def pySpace (c : Char) : Bool :=
  c = ' ' ∨ c = '\t' ∨ c = '\n' ∨ c = '\x0d' ∨ c = '\x0b' ∨ c = '\x0c'

/-- Python `str.strip()` on a character list. -/
def pyStripL (l : List Char) : List Char :=
  ((l.dropWhile pySpace).reverse.dropWhile pySpace).reverse

/-- Python `str.strip()`. -/
def pyStrip (s : String) : String :=
  String.mk (pyStripL s.data)

/-- ASCII lowering of one character (`str.lower()` restricted to ASCII; the
multilingual tokens of the source are already lowercase). -/
def pyLowerChar (c : Char) : Char :=
  if 65 ≤ c.toNat ∧ c.toNat ≤ 90 then Char.ofNat (c.toNat + 32) else c

/-- Python `str.lower()` (ASCII model). -/
def pyLower (s : String) : String :=
  String.mk (s.data.map pyLowerChar)

/-- Digit run of a Python `int()` literal after the optional sign: one digit,
then further digits, single underscores allowed between digits. -/
def pyIntGo (acc : Nat) : List Char → Option Nat
  | [] => some acc
  | '_' :: c :: r =>
    match digitVal c with
    | some d => pyIntGo (acc * 10 + d) r
    | none => none
  | [ '_' ] => none
  | c :: r =>
    match digitVal c with
    | some d => pyIntGo (acc * 10 + d) r
    | none => none

/-- Nonempty digit run (`int()` body). -/
def pyIntDigits : List Char → Option Nat
  | [] => none
  | c :: r =>
    match digitVal c with
    | some d => pyIntGo d r
    | none => none

/-- Python `int(s)` on a string: strip whitespace, optional sign, decimal
digits with optional single underscores.  Returns `none` where CPython raises
`ValueError`. -/
def pyIntOfString (s : String) : Option Int :=
  match pyStripL s.data with
  | '+' :: r => (pyIntDigits r).map Int.ofNat
  | '-' :: r => (pyIntDigits r).map (fun n => -(n : Int))
  | r => (pyIntDigits r).map Int.ofNat

/-- Python `int(x)` on a dynamic value (`bool` is an `int` subclass; floats
truncate toward zero; other types raise `TypeError`). -/
def pyIntOfVal : Val → Option Int
  | .vint n => some n
  | .vbool b => some (if b then 1 else 0)
  | .vfloat q => some (Int.tdiv q.num (q.den : Int))
  | .vstr s => pyIntOfString s
  | _ => none

/-- A single quote character, kept out of string literals. -/
def sq : String :=
  String.singleton (Char.ofNat 39)

/-- Python `sep.join(items)`. -/
def pyJoin (sepa : String) : List String → String
  | [] => ""
  | [x] => x
  | x :: y :: r => x ++ sepa ++ pyJoin sepa (y :: r)

mutual

/-- Python `repr` for the modelled values (string escaping inside reprs and
float display are not modelled exactly; no claim depends on them). -/
def pyRepr : Val → String
  | .vnone => "None"
  | .vbool b => if b then "True" else "False"
  | .vint n => toString n
  | .vfloat q => toString q.num ++ "/" ++ toString q.den
  | .vstr s => sq ++ s ++ sq
  | .vlist xs => "[" ++ pyJoin ", " (pyReprList xs) ++ "]"
  | .vdict es => "\x7b" ++ pyJoin ", " (pyReprDict es) ++ "\x7d"

/-- `repr` of each element of a list. -/
def pyReprList : List Val → List String
  | [] => []
  | x :: xs => pyRepr x :: pyReprList xs

/-- `repr` of each entry of a dict. -/
def pyReprDict : List (String × Val) → List String
  | [] => []
  | (k, v) :: es => (sq ++ k ++ sq ++ ": " ++ pyRepr v) :: pyReprDict es

end

/-- Python `str(x)` for the modelled values. -/
def pyStr : Val → String
  | .vstr s => s
  | v => pyRepr v

end OdooMcp

namespace OdooMcp

/-! ## Filter normalizer (`src/agent/langchain_agent.py`) -/

/-- `OdooAgent.VALID_ODOO_OPERATORS`. -/
def VALID_ODOO_OPERATORS : List String :=
  [ "=", "!=", ">", "<", ">=", "<=",
    "in", "not in",
    "like", "ilike", "not like", "not ilike",
    "=like", "=ilike",
    "child_of", "parent_of" ]

/-- `operator in VALID_ODOO_OPERATORS`: set membership of a dynamic value in
a set of strings is only possible for equal strings. -/
def opValid : Val → Bool
  | .vstr s => VALID_ODOO_OPERATORS.contains s
  | _ => false

/-- Membership of a dynamic value in a tuple of string literals
(`operator in ('year', 'YEAR')` and friends). -/
def opIsAny (op : Val) (names : List String) : Bool :=
  match op with
  | .vstr s => names.contains s
  | _ => false

/-- `OdooAgent._fix_invalid_operator`: repair an invalid operator, returning
a list of valid filter conditions. -/
def fix_invalid_operator (field : Val) (operator : Val) (value : Val) : List Val :=
  if opValid operator then
    [ .vlist [field, operator, value] ]
  else if opIsAny operator [ "year", "YEAR" ] then
    match pyIntOfVal value with
    | some year =>
      [ .vstr "&",
        .vlist [field, .vstr ">=", .vstr (toString year ++ "-01-01")],
        .vlist [field, .vstr "<", .vstr (toString (year + 1) ++ "-01-01")] ]
    | none => []
  else if opIsAny operator [ "month", "MONTH" ] then
    []
  else if opIsAny operator [ "contains", "CONTAINS" ] then
    [ .vlist [field, .vstr "ilike", value] ]
  else if opIsAny operator [ "starts_with", "startswith", "STARTS_WITH" ] then
    [ .vlist [field, .vstr "=like", .vstr (pyStr value ++ "%")] ]
  else if opIsAny operator [ "ends_with", "endswith", "ENDS_WITH" ] then
    [ .vlist [field, .vstr "=like", .vstr ("%" ++ pyStr value)] ]
  else
    []

/-- Whether a dynamic value is Python `None` (`value is None`). -/
def isNone : Val → Bool
  | .vnone => true
  | _ => false

/-- Whether a dynamic value is a string. -/
def isVStr : Val → Bool
  | .vstr _ => true
  | _ => false

/-- Whether a dynamic value is a list. -/
def isVList : Val → Bool
  | .vlist _ => true
  | _ => false

/-- The body of the `for item in filters` loop of
`OdooAgent._normalize_domain_filters`: what one raw item contributes to the
normalized output. -/
def normalizeItem (item : Val) : List Val :=
  match item with
  | .vdict es =>
    let f := pyOr (dget es "field") (pyOr (dget es "name") (dget es "column"))
    let op := pyOr (dget es "operator") (pyOr (dget es "op") (.vstr "="))
    let v := dget es "value"
    if truthy f && !isNone v then fix_invalid_operator f op v else []
  | .vlist xs =>
    if xs.length = 3 ∧ isVStr (xs.headD .vnone) then
      fix_invalid_operator (xs.getD 0 .vnone) (xs.getD 1 .vnone) (xs.getD 2 .vnone)
    else if 0 < xs.length ∧ isVList (xs.headD .vnone) then
      xs.flatMap (fun sub =>
        match sub with
        | .vlist [a, b, c] => fix_invalid_operator a b c
        | _ => [])
    else
      [item]
  | .vstr s => if s = "&" ∨ s = "|" ∨ s = "!" then [item] else []
  | _ => []

/-- `OdooAgent._normalize_domain_filters`: falsy input and non-list input
yield the empty domain; otherwise each item is normalized independently. -/
def normalize_domain_filters (filters : Val) : List Val :=
  if truthy filters = false then []
  else
    match filters with
    | .vlist items => items.flatMap normalizeItem
    | _ => []

/-- An element of the normalized output that is valid as produced: a domain
combinator token or a leaf with a string field name and an operator from the
accepted closed set. -/
def validElem : Val → Bool
  | .vstr s => s == "&" || s == "|" || s == "!"
  | .vlist [.vstr _, .vstr op, _] => VALID_ODOO_OPERATORS.contains op
  | _ => false

theorem opValid_mem {op : Val} (h : opValid op = true) :
    ∃ s, op = .vstr s ∧ s ∈ VALID_ODOO_OPERATORS := by
  cases op <;> simp [opValid] at h ⊢
  exact h

/-- Everything `_fix_invalid_operator` emits is either the conjunction token
or a three-element leaf whose operator string belongs to
`VALID_ODOO_OPERATORS`. -/
theorem fix_invalid_operator_shape {fl op v e : Val}
    (he : e ∈ fix_invalid_operator fl op v) :
    e = .vstr "&" ∨ ∃ a s c, e = .vlist [a, .vstr s, c] ∧ s ∈ VALID_ODOO_OPERATORS := by
  unfold fix_invalid_operator at he
  by_cases h1 : opValid op = true
  · rw [if_pos h1] at he
    rcases opValid_mem h1 with ⟨s, rfl, hs⟩
    simp at he
    exact Or.inr ⟨fl, s, v, he, hs⟩
  · rw [if_neg h1] at he
    by_cases h2 : opIsAny op [ "year", "YEAR" ] = true
    · rw [if_pos h2] at he
      cases hy : pyIntOfVal v with
      | some y =>
        rw [hy] at he
        simp only [List.mem_cons, List.not_mem_nil, or_false] at he
        rcases he with he | he | he
        · exact Or.inl he
        · exact Or.inr ⟨fl, ">=", _, he, by decide⟩
        · exact Or.inr ⟨fl, "<", _, he, by decide⟩
      | none => rw [hy] at he; cases he
    · rw [if_neg h2] at he
      by_cases h3 : opIsAny op [ "month", "MONTH" ] = true
      · rw [if_pos h3] at he; cases he
      · rw [if_neg h3] at he
        by_cases h4 : opIsAny op [ "contains", "CONTAINS" ] = true
        · rw [if_pos h4] at he
          simp at he
          exact Or.inr ⟨fl, "ilike", v, he, by decide⟩
        · rw [if_neg h4] at he
          by_cases h5 : opIsAny op [ "starts_with", "startswith", "STARTS_WITH" ] = true
          · rw [if_pos h5] at he
            simp at he
            exact Or.inr ⟨fl, "=like", _, he, by decide⟩
          · rw [if_neg h5] at he
            by_cases h6 : opIsAny op [ "ends_with", "endswith", "ENDS_WITH" ] = true
            · rw [if_pos h6] at he
              simp at he
              exact Or.inr ⟨fl, "=like", _, he, by decide⟩
            · rw [if_neg h6] at he; cases he

/-- Every output element of `normalizeItem` that is a three-element leaf with
a string field name carries an operator from the closed set. -/
theorem normalizeItem_operator_valid {item e : Val} (he : e ∈ normalizeItem item)
    {f o : String} {vv : Val} (hef : e = .vlist [.vstr f, .vstr o, vv]) :
    o ∈ VALID_ODOO_OPERATORS := by
  have leafCase :
      ∀ {fl op v : Val}, e ∈ fix_invalid_operator fl op v → o ∈ VALID_ODOO_OPERATORS := by
    intro fl op v hmem
    rcases fix_invalid_operator_shape hmem with h | ⟨a, s, c, hs, hmemop⟩
    · rw [hef] at h; cases h
    · rw [hef] at hs
      obtain ⟨-, h2, -⟩ : Val.vstr f = a ∧ o = s ∧ vv = c := by
        have := Val.vlist.inj hs
        simpa using this
      exact h2 ▸ hmemop
  cases item with
  | vdict es =>
    simp only [normalizeItem] at he
    split at he
    · exact leafCase he
    · cases he
  | vlist xs =>
    simp only [normalizeItem] at he
    split at he
    · exact leafCase he
    · split at he
      · rcases List.mem_flatMap.mp he with ⟨sub, -, hsub⟩
        split at hsub
        · exact leafCase hsub
        · cases hsub
      · rename_i hc1 hc2
        cases he with
        | head =>
          obtain rfl := Val.vlist.inj hef
          exact absurd ⟨rfl, rfl⟩ hc1
        | tail _ h => cases h
  | vstr s =>
    simp only [normalizeItem] at he
    split at he
    · cases he with
      | head => exact Val.noConfusion hef
      | tail _ h => cases h
    · cases he
  | vnone => cases he
  | vbool b => cases he
  | vint n => cases he
  | vfloat q => cases he

/-- Claim C2: every three-element leaf condition (string field, operator,
value) present in the output of `_normalize_domain_filters` has its operator
drawn from `VALID_ODOO_OPERATORS`; leaves with unrecognized operators are
dropped, never emitted. -/
theorem c2_normalized_operators_closed (x e : Val)
    (he : e ∈ normalize_domain_filters x)
    (f o : String) (vv : Val) (hef : e = .vlist [.vstr f, .vstr o, vv]) :
    o ∈ VALID_ODOO_OPERATORS := by
  unfold normalize_domain_filters at he
  split at he
  · cases he
  · split at he
    · rcases List.mem_flatMap.mp he with ⟨item, -, hitem⟩
      exact normalizeItem_operator_valid hitem hef
    · cases he

/-- Witness for C2 at a concrete input: a `contains` pseudo-operator is
rewritten to `ilike`, which is in the closed set. -/
theorem c2_normalized_operators_closed_witness :
    Val.vlist [.vstr "name", .vstr "ilike", .vstr "Acme"] ∈
      normalize_domain_filters
        (.vlist [.vlist [.vstr "name", .vstr "contains", .vstr "Acme"]]) ∧
    "ilike" ∈ VALID_ODOO_OPERATORS :=
  ⟨List.Mem.head _,
   c2_normalized_operators_closed
     (.vlist [.vlist [.vstr "name", .vstr "contains", .vstr "Acme"]])
     (.vlist [.vstr "name", .vstr "ilike", .vstr "Acme"])
     (List.Mem.head _) "name" "ilike" (.vstr "Acme") rfl⟩

theorem normalizeItem_of_validElem {x : Val} (h : validElem x = true) :
    normalizeItem x = [x] := by
  cases x with
  | vstr s =>
    have h' : s = "&" ∨ s = "|" ∨ s = "!" := by
      simp [validElem] at h
      tauto
    rcases h' with rfl | rfl | rfl <;> rfl
  | vlist xs =>
    match xs, h with
    | [.vstr f, .vstr op, v], h =>
      simp only [validElem] at h
      simp only [normalizeItem]
      rw [if_pos (by simp [isVStr])]
      simp only [List.getD]
      unfold fix_invalid_operator
      rw [if_pos (by simpa [opValid] using h)]
      rfl
  | vnone => cases h
  | vbool b => cases h
  | vint n => cases h
  | vfloat q => cases h
  | vdict es => cases h

/-- Claim C6: `_normalize_domain_filters` is the identity on lists that only
contain already-valid leaves and the boolean combinator tokens. -/
theorem c6_normalize_identity_on_valid (items : List Val)
    (h : ∀ x ∈ items, validElem x = true) :
    normalize_domain_filters (.vlist items) = items := by
  cases items with
  | nil => rfl
  | cons a t =>
    have hall : ∀ x ∈ a :: t, normalizeItem x = [x] := fun x hx =>
      normalizeItem_of_validElem (h x hx)
    have hfm : ∀ (l : List Val), (∀ x ∈ l, normalizeItem x = [x]) → l.flatMap normalizeItem = l := by
      intro l
      induction l with
      | nil => intro _; rfl
      | cons b r ih =>
        intro hl
        rw [List.flatMap_cons, hl b (List.Mem.head _), ih fun x hx => hl x (List.Mem.tail _ hx)]
        rfl
    simp only [normalize_domain_filters, truthy]
    rw [if_neg (by simp)]
    exact hfm _ hall

/-- Witness for C6 at a concrete already-valid input. -/
theorem c6_normalize_identity_on_valid_witness :
    normalize_domain_filters
        (.vlist [.vstr "&", .vlist [.vstr "state", .vstr "=", .vstr "done"],
                 .vlist [.vstr "amount", .vstr ">=", .vint 100]]) =
      [.vstr "&", .vlist [.vstr "state", .vstr "=", .vstr "done"],
       .vlist [.vstr "amount", .vstr ">=", .vint 100]] :=
  c6_normalize_identity_on_valid _ (by
    intro x hx
    cases hx with
    | head => rfl
    | tail _ h1 =>
      cases h1 with
      | head => rfl
      | tail _ h2 =>
        cases h2 with
        | head => rfl
        | tail _ h3 => cases h3)

/-- Claim C7: inside a raw filter list, a leaf `(f, "year", v)` is replaced by
the conjunction token and the two date-range leaves when `int(v)` succeeds
with value `y`, and is dropped entirely when it fails; the rest of the list
is unaffected. -/
theorem c7_year_operator_expansion (f : String) (v : Val) (xs ys : List Val) :
    normalize_domain_filters (.vlist (xs ++ .vlist [.vstr f, .vstr "year", v] :: ys)) =
      xs.flatMap normalizeItem ++
        (match pyIntOfVal v with
         | some y =>
           [ .vstr "&",
             .vlist [.vstr f, .vstr ">=", .vstr (toString y ++ "-01-01")],
             .vlist [.vstr f, .vstr "<", .vstr (toString (y + 1) ++ "-01-01")] ]
         | none => []) ++
        ys.flatMap normalizeItem := by
  simp only [normalize_domain_filters, truthy]
  rw [if_neg (by cases xs <;> simp)]
  rw [List.flatMap_append, List.flatMap_cons, List.append_assoc]
  congr 1

end OdooMcp

namespace OdooMcp

/-! ## `datetime.strptime` model

CPython's `_strptime` compiles a format into a regex (alternatives tried in
order, with backtracking), takes the first match of the anchored-at-start
pattern, rejects the parse when trailing input remains, and then validates
through the `datetime` constructor.  The numeric directives used by the
source translate to: `%d` = `3[01]|[1-2]\d|0[1-9]|[1-9]| [1-9]`, `%m` =
`1[0-2]|0[1-9]|[1-9]`, `%H` = `2[0-3]|[0-1]\d|\d`, `%M`/`%S` = `[0-5]\d|\d`,
`%Y` = exactly four digits. -/

/-- One directive of a `strptime` format string. -/
inductive Tok where
  | lit (c : Char)
  | Y4
  | Mo
  | Da
  | Ho
  | Mi
  | Se
  deriving DecidableEq

/-- Candidate parses of a two-digit-or-one-digit numeric directive, in regex
alternation order: the two-digit alternatives (valid when the value is in
`[lo2, hi2]`), then the one-digit alternative (valid when the digit is at
least `lo1`), then an optional space-padded one-digit alternative. -/
def numCands (lo2 hi2 lo1 : Nat) (spacePad : Bool) : List Char → List (Nat × List Char)
  | c1 :: c2 :: r =>
    (match digitVal c1, digitVal c2 with
     | some a, some b =>
       if lo2 ≤ 10 * a + b ∧ 10 * a + b ≤ hi2 then [(10 * a + b, r)] else []
     | _, _ => []) ++
    (match digitVal c1 with
     | some a => if lo1 ≤ a then [(a, c2 :: r)] else []
     | none => []) ++
    (if spacePad ∧ c1 = ' ' then
      (match digitVal c2 with
       | some b => if 1 ≤ b then [(b, r)] else []
       | none => [])
     else [])
  | [c1] =>
    (match digitVal c1 with
     | some a => if lo1 ≤ a then [(a, [])] else []
     | none => [])
  | [] => []

/-- Candidate parses of one directive, in regex order. -/
def tokCands : Tok → List Char → List (Nat × List Char)
  | .lit c, c' :: r => if c' = c then [(0, r)] else []
  | .lit _, [] => []
  | .Y4, c1 :: c2 :: c3 :: c4 :: r =>
    (match digitVal c1, digitVal c2, digitVal c3, digitVal c4 with
     | some a, some b, some c, some d => [(((a * 10 + b) * 10 + c) * 10 + d, r)]
     | _, _, _, _ => [])
  | .Y4, _ => []
  | .Da, s => numCands 1 31 1 true s
  | .Mo, s => numCands 1 12 1 false s
  | .Ho, s => numCands 0 23 0 false s
  | .Mi, s => numCands 0 59 0 false s
  | .Se, s => numCands 0 59 0 false s

/-- All full-pattern matches of a format against an input, in the regex
engine's backtracking order, each with its captured directive values and the
unconsumed remainder. -/
def runToks : List Tok → List Char → List (List (Tok × Nat) × List Char)
  | [], s => [([], s)]
  | t :: ts, s =>
    (tokCands t s).flatMap fun p =>
      (runToks ts p.2).map fun q => ((t, p.1) :: q.1, q.2)

/-- Captured value of a directive, with the `strptime` default for absent
directives (year 1900, month 1, day 1, time 0). -/
def fieldVal (fs : List (Tok × Nat)) (t : Tok) (dflt : Nat) : Nat :=
  match fs.find? (fun p => p.1 = t) with
  | some p => p.2
  | none => dflt

/-- Day count of a month, as validated by the `datetime` constructor. -/
def days_in_month (y m : Nat) : Nat :=
  if m = 2 then (if (y % 4 = 0 ∧ y % 100 ≠ 0) ∨ y % 400 = 0 then 29 else 28)
  else if m = 4 ∨ m = 6 ∨ m = 9 ∨ m = 11 then 30 else 31

/-- A parsed `datetime` record. -/
structure PDateTime where
  year : Nat
  month : Nat
  day : Nat
  hour : Nat
  minute : Nat
  second : Nat
  deriving DecidableEq

/-- The range checks of the `datetime(...)` constructor. -/
def validDT (t : PDateTime) : Bool :=
  1 ≤ t.year ∧ t.year ≤ 9999 ∧ 1 ≤ t.month ∧ t.month ≤ 12 ∧
    1 ≤ t.day ∧ t.day ≤ days_in_month t.year t.month ∧
    t.hour ≤ 23 ∧ t.minute ≤ 59 ∧ t.second ≤ 59

/-- `datetime.strptime(s, fmt)` for one format: first regex match, full
consumption required, then constructor validation.  `none` models
`ValueError`. -/
def strptime1 (fmt : List Tok) (s : List Char) : Option PDateTime :=
  match (runToks fmt s).head? with
  | none => none
  | some (fs, rest) =>
    if rest = [] then
      let t : PDateTime :=
        ⟨fieldVal fs .Y4 1900, fieldVal fs .Mo 1, fieldVal fs .Da 1,
         fieldVal fs .Ho 0, fieldVal fs .Mi 0, fieldVal fs .Se 0⟩
      if validDT t then some t else none
    else none

/-- The `for fmt in FORMATS: try ... except ValueError: continue` loop. -/
def tryFormats (fmts : List (List Tok)) (s : List Char) : Option PDateTime :=
  match fmts with
  | [] => none
  | f :: rest =>
    match strptime1 f s with
    | some t => some t
    | none => tryFormats rest s

/-- `'%Y-%m-%d'`. -/
def fmtISO : List Tok := [.Y4, .lit '-', .Mo, .lit '-', .Da]

/-- `'%d.%m.%Y'`. -/
def fmtDot : List Tok := [.Da, .lit '.', .Mo, .lit '.', .Y4]

/-- `'%d/%m/%Y'`. -/
def fmtSlashDM : List Tok := [.Da, .lit '/', .Mo, .lit '/', .Y4]

/-- `'%m/%d/%Y'`. -/
def fmtSlashMD : List Tok := [.Mo, .lit '/', .Da, .lit '/', .Y4]

/-- `'%Y-%m-%d %H:%M:%S'`. -/
def fmtISODT : List Tok :=
  [.Y4, .lit '-', .Mo, .lit '-', .Da, .lit ' ', .Ho, .lit ':', .Mi, .lit ':', .Se]

/-- `OdooValueValidator.DATE_FORMATS`, in source order. -/
def DATE_FORMATS : List (List Tok) :=
  [fmtISO, fmtDot, fmtSlashDM, fmtSlashMD, fmtISODT]

/-- `OdooValueValidator.DATETIME_FORMATS`, in source order. -/
def DATETIME_FORMATS : List (List Tok) :=
  [ fmtISODT,
    [.Y4, .lit '-', .Mo, .lit '-', .Da, .lit 'T', .Ho, .lit ':', .Mi, .lit ':', .Se],
    [.Y4, .lit '-', .Mo, .lit '-', .Da, .lit ' ', .Ho, .lit ':', .Mi],
    [.Da, .lit '.', .Mo, .lit '.', .Y4, .lit ' ', .Ho, .lit ':', .Mi, .lit ':', .Se],
    [.Da, .lit '.', .Mo, .lit '.', .Y4, .lit ' ', .Ho, .lit ':', .Mi],
    [.Da, .lit '/', .Mo, .lit '/', .Y4, .lit ' ', .Ho, .lit ':', .Mi, .lit ':', .Se],
    fmtISO ]

/-- Last two decimal digits, zero padded (`%m`, `%d`, `%H`, `%M`, `%S`). -/
def pad2 (n : Nat) : List Char :=
  [digitChar48 (n / 10), digitChar48 n]

/-- Last four decimal digits, zero padded (`%Y` for four-digit years). -/
def pad4 (n : Nat) : List Char :=
  [digitChar48 (n / 1000), digitChar48 (n / 100), digitChar48 (n / 10), digitChar48 n]

/-- `dt.strftime('%Y-%m-%d')` for four-digit years. -/
def strftimeDate (t : PDateTime) : List Char :=
  pad4 t.year ++ '-' :: pad2 t.month ++ '-' :: pad2 t.day

/-- `dt.strftime('%Y-%m-%d %H:%M:%S')` for four-digit years. -/
def strftimeDatetime (t : PDateTime) : List Char :=
  strftimeDate t ++ ' ' :: pad2 t.hour ++ ':' :: pad2 t.minute ++ ':' :: pad2 t.second

/-- `OdooValueValidator._convert_date` on a string input: strip, try the
five date formats in order, reformat canonically; `none` models the
`ValueError` raise. -/
def convert_date (s : String) : Option String :=
  match tryFormats DATE_FORMATS (pyStripL s.data) with
  | some t => some (String.mk (strftimeDate t))
  | none => none

/-- `OdooValueValidator._convert_datetime` on a string input. -/
def convert_datetime (s : String) : Option String :=
  match tryFormats DATETIME_FORMATS (pyStripL s.data) with
  | some t => some (String.mk (strftimeDatetime t))
  | none => none

end OdooMcp

namespace OdooMcp

/-! ## Value validator (`src/rag/validator.py`) and schema model
(`src/rag/schema_cache.py`) -/

/-- Generic first-match association-list lookup (Python dict access). -/
def alookup {α : Type} (k : String) : List (String × α) → Option α
  | [] => none
  | p :: r => if p.1 = k then some p.2 else alookup k r

/-- Python dict assignment `d[k] = v`: overwrite in place, else append. -/
def aset {α : Type} (d : List (String × α)) (k : String) (v : α) : List (String × α) :=
  if d.any (fun p => p.1 = k) then d.map (fun p => if p.1 = k then (k, v) else p)
  else d ++ [(k, v)]

/-- Python `type(x).__name__` for the modelled values. -/
def pyTypeName : Val → String
  | .vnone => "NoneType"
  | .vbool _ => "bool"
  | .vint _ => "int"
  | .vfloat _ => "float"
  | .vstr _ => "str"
  | .vlist _ => "list"
  | .vdict _ => "dict"

/-- `FieldSchema` dataclass. -/
structure FieldSchema where
  name : String
  type : String
  string : String
  help : Option String := none
  required : Bool := false
  readonly : Bool := false
  selection : Option (List (String × String)) := none
  relation : Option String := none
  deriving DecidableEq

/-- `ModelSchema` dataclass (`loadedAt` from `time.time()`, modelled as a
natural number of seconds). -/
structure ModelSchema where
  model : String
  fields : List (String × FieldSchema)
  loadedAt : Nat
  deriving DecidableEq

/-- `FieldSchema.get_selection_values`. -/
def get_selection_values (fs : FieldSchema) : List String :=
  match fs.selection with
  | some sel => sel.map Prod.fst
  | none => []

/-- Python `{v[0]: v[1] for v in selection}`: key order is first occurrence,
value is the last binding (`FieldSchema.get_selection_labels`). -/
def get_selection_labels (fs : FieldSchema) : List (String × String) :=
  match fs.selection with
  | some sel => sel.foldl (fun d p => aset d p.1 p.2) []
  | none => []

/-- Digits taken greedily from the front of a character list. -/
def takeDigits : List Char → List Nat × List Char
  | [] => ([], [])
  | c :: r =>
    match digitVal c with
    | some d =>
      let q := takeDigits r
      (d :: q.1, q.2)
    | none => ([], c :: r)

/-- Value of a big-endian digit list. -/
def digitsToNat (ds : List Nat) : Nat :=
  ds.foldl (fun a d => a * 10 + d) 0

/-- Exponent suffix of a float literal (`e`/`E`, optional sign, digits), with
`some 0` for an empty remainder. -/
def parseExpPart : List Char → Option Int
  | [] => some 0
  | c :: r =>
    if c = 'e' ∨ c = 'E' then
      let p : Int × List Char :=
        match r with
        | '+' :: t => (1, t)
        | '-' :: t => (-1, t)
        | t => (1, t)
      let q := takeDigits p.2
      if q.1.isEmpty ∨ !q.2.isEmpty then none
      else some (p.1 * (digitsToNat q.1 : Int))
    else none

/-- Exact value of a Python `float` literal as a scaled decimal integer:
`some (n, k)` denotes the rational `n / 10^k`.  Grammar of `float(s)`:
optional sign, integer and fractional digit runs (at least one digit in
total), optional exponent.  `inf`/`nan` and underscore separators are not
modelled. -/
def pyDecParse (s : String) : Option (Int × Nat) :=
  let cs := pyStripL s.data
  let sgn : Bool × List Char :=
    match cs with
    | '+' :: t => (false, t)
    | '-' :: t => (true, t)
    | t => (false, t)
  let ip := takeDigits sgn.2
  let mant : Nat × Nat × Bool × List Char :=
    match ip.2 with
    | '.' :: r2 =>
      let fp := takeDigits r2
      (digitsToNat (ip.1 ++ fp.1), fp.1.length, !(ip.1.isEmpty && fp.1.isEmpty), fp.2)
    | _ => (digitsToNat ip.1, 0, !ip.1.isEmpty, ip.2)
  if mant.2.2.1 = false then none
  else
    match parseExpPart mant.2.2.2 with
    | none => none
    | some e =>
      let v : Nat × Nat :=
        if (mant.2.1 : Int) ≤ e then (mant.1 * 10 ^ (e - (mant.2.1 : Int)).toNat, 0)
        else (mant.1, ((mant.2.1 : Int) - e).toNat)
      some ((if sgn.1 then -(v.1 : Int) else (v.1 : Int)), v.2)

/-- Python `float(s)` as an exact rational (the decimal value the literal
denotes, before binary64 rounding). -/
def pyFloatOfString (s : String) : Option Rat :=
  (pyDecParse s).map fun p => (p.1 : Rat) / (10 : Rat) ^ p.2

/-- Largest `i` in `[0, 2099]` with `2^i * d ≤ A` (and `0` when none), by
binary search on the fixed range; `i - 1075` is the clamped binary exponent
of `A / (d * 2^1075)`. -/
def bsB64 : Nat → Nat → Nat → Nat → Nat → Nat
  | 0, lo, _, _, _ => lo
  | f + 1, lo, hi, d, A =>
    if hi ≤ lo + 1 then lo
    else
      let mid := (lo + hi) / 2
      if 2 ^ mid * d ≤ A then bsB64 f mid hi d A else bsB64 f lo mid d A

/-- Round-to-nearest, ties-to-even of the positive rational `a / d` onto the
IEEE-754 binary64 grid: result is `(mantissa, quantum exponent)` denoting
`mantissa * 2^e`, with quantum `2^(j-52)` for a normal binade `j ≥ -1022` and
the fixed subnormal quantum `2^-1074` below it.  A mantissa that reaches
`2^53` carries into the next binade; overflow is detected by the caller. -/
def b64RoundPos (a d : Nat) : Nat × Int :=
  let j : Int := (bsB64 12 0 2100 d (a * 2 ^ 1075) : Int) - 1075
  let e : Int := max (j - 52) (-1074)
  let N := if e ≤ 0 then a * 2 ^ (-e).toNat else a
  let D := if e ≤ 0 then d else d * 2 ^ e.toNat
  let n := N / D
  let r := N % D
  let n2 := if 2 * r < D then n else if D < 2 * r then n + 1 else if n % 2 = 0 then n else n + 1
  (n2, e)

/-- `int(float(...))` on the exact decimal `n / 10^k`: round to the nearest
binary64 value (ties to even), then truncate toward zero.  `none` models an
infinite rounding result (`float` overflow at `2^1024`), where `int()`
raises `OverflowError`. -/
def b64TruncDec (n : Int) (k : Nat) : Option Int :=
  if n = 0 then some 0
  else
    let p := b64RoundPos n.natAbs (10 ^ k)
    if 0 < (p.1 * 2 ^ (p.2 + 1074).toNat) >>> 2098 then none
    else
      let t : Nat := if 0 ≤ p.2 then p.1 * 2 ^ p.2.toNat else p.1 / 2 ^ (-p.2).toNat
      some (if n < 0 then -(t : Int) else (t : Int))

/-- The cleaning step of `_convert_integer`: strip, then drop comma
thousands-separators and spaces. -/
def cleanNumericString (s : String) : String :=
  String.mk ((pyStripL s.data).filter (fun c => !(c = ',' ∨ c = ' ')))

/-- `OdooValueValidator._convert_integer`.  The string branch is
`int(float(cleaned))`: the decimal literal is parsed exactly and rounded to
the nearest binary64 value (ties to even) before truncation toward zero.
The `OverflowError` that `int()` raises on an infinite parse result is not a
`ValueError` and escapes the validator in CPython; it is totalized into an
error value here. -/
def convert_integer (value : Val) : Except String Val :=
  match value with
  | .vbool b => .ok (.vbool b)
  | .vint n => .ok (.vint n)
  | .vfloat q => .ok (.vint (Int.tdiv q.num (q.den : Int)))
  | .vstr s =>
    let t := cleanNumericString s
    match pyDecParse t with
    | some p =>
      (match b64TruncDec p.1 p.2 with
       | some z => .ok (.vint z)
       | none => .error "OverflowError: cannot convert float infinity to integer")
    | none => .error ("Cannot convert " ++ sq ++ t ++ sq ++ " to integer")
  | v => .error ("Cannot convert " ++ pyTypeName v ++ " to integer")

/-- `OdooValueValidator._convert_float`. -/
def convert_float (value : Val) : Except String Val :=
  match value with
  | .vbool b => .ok (.vfloat (if b then 1 else 0))
  | .vint n => .ok (.vfloat n)
  | .vfloat q => .ok (.vfloat q)
  | .vstr s =>
    let t := String.mk (((pyStripL s.data).map (fun c => if c = ',' then '.' else c)).filter
      (fun c => c ≠ ' '))
    match pyFloatOfString t with
    | some q => .ok (.vfloat q)
    | none => .error ("Cannot convert " ++ sq ++ t ++ sq ++ " to float")
  | v => .error ("Cannot convert " ++ pyTypeName v ++ " to float")

/-- `OdooValueValidator._convert_boolean`. -/
def convert_boolean (value : Val) : Except String Val :=
  match value with
  | .vbool b => .ok (.vbool b)
  | .vint n => .ok (.vbool (n != 0))
  | .vfloat q => .ok (.vbool (q != 0))
  | .vstr s =>
    let lower := pyStrip (pyLower s)
    if lower ∈ [ "true", "1", "yes", "да", "on" ] then .ok (.vbool true)
    else if lower ∈ [ "false", "0", "no", "нет", "off" ] then .ok (.vbool false)
    else .error ("Cannot convert " ++ sq ++ s ++ sq ++ " to boolean")
  | v => .error ("Cannot convert " ++ pyTypeName v ++ " to boolean")

/-- `OdooValueValidator._convert_selection`: exact raw match, then
case-insensitive raw match, then case-insensitive label match, else an error
listing the legal raw values. -/
def convert_selection (value : Val) (fs : FieldSchema) : Except String Val :=
  let vs := pyStrip (pyStr value)
  let allowed := get_selection_values fs
  if allowed.isEmpty then .ok (.vstr vs)
  else if allowed.contains vs then .ok (.vstr vs)
  else
    match allowed.find? (fun a => pyLower a = pyLower vs) with
    | some a => .ok (.vstr a)
    | none =>
      match (get_selection_labels fs).find? (fun p => pyLower p.2 = pyLower vs) with
      | some p => .ok (.vstr p.1)
      | none =>
        .error ("Invalid value " ++ sq ++ vs ++ sq ++ ". Allowed: " ++
          pyJoin ", " allowed)

/-- `OdooValueValidator._convert_many2one` (`None`/`False` map to the `False`
sentinel; `bool` is an `int` instance, so `True` passes through the integer
branch unchanged). -/
def convert_many2one (value : Val) : Except String Val :=
  match value with
  | .vnone => .ok (.vbool false)
  | .vbool false => .ok (.vbool false)
  | .vbool true => .ok (.vbool true)
  | .vint n => .ok (.vint n)
  | .vlist (y :: _) =>
    (match pyIntOfVal y with
     | some n => .ok (.vint n)
     | none => .error ("invalid literal for int(): " ++ pyRepr y))
  | .vstr s =>
    (match pyIntOfString s with
     | some n => .ok (.vint n)
     | none => .error ("Many2one field requires integer ID, got " ++ sq ++ s ++ sq))
  | .vlist [] => .error "Cannot convert list to many2one ID"
  | v => .error ("Cannot convert " ++ pyTypeName v ++ " to many2one ID")

/-- The identifier-collection loop of `_convert_x2many`: unparseable entries
in the `else` arm are skipped, failures of `int(v[0])` propagate. -/
def x2manyIds : List Val → Except String (List Int)
  | [] => .ok []
  | v :: rest =>
    match v with
    | .vint n => (x2manyIds rest).map (fun l => n :: l)
    | .vbool b => (x2manyIds rest).map (fun l => (if b then 1 else 0) :: l)
    | .vlist (y :: _) =>
      (match pyIntOfVal y with
       | some n => (x2manyIds rest).map (fun l => n :: l)
       | none => .error ("invalid literal for int(): " ++ pyRepr y))
    | .vlist [] => x2manyIds rest
    | other =>
      (match pyIntOfVal other with
       | some n => (x2manyIds rest).map (fun l => n :: l)
       | none => x2manyIds rest)

/-- `OdooValueValidator._convert_x2many` (command tuples modelled as
lists). -/
def convert_x2many (value : Val) : Except String Val :=
  match value with
  | .vnone => .ok (.vlist [.vlist [.vint 5, .vint 0, .vint 0]])
  | .vlist (x :: xs) =>
    if isVList x then .ok (.vlist (x :: xs))
    else
      (match x2manyIds (x :: xs) with
       | .ok ids => .ok (.vlist [.vlist [.vint 6, .vint 0, .vlist (ids.map Val.vint)]])
       | .error e => .error e)
  | .vlist [] =>
    .ok (.vlist [.vlist [.vint 6, .vint 0, .vlist []]])
  | v => .error ("Cannot convert " ++ pyTypeName v ++ " to x2many format")

/-- `OdooValueValidator._convert_value`: the `None` check precedes every
type-specific conversion; then dispatch on the field kind, with pass-through
for `binary` and unknown kinds. -/
def convert_value (value : Val) (fs : FieldSchema) : Except String Val :=
  match value with
  | .vnone => if fs.required then .error "Required field cannot be null" else .ok .vnone
  | v =>
    if fs.type = "integer" then convert_integer v
    else if fs.type = "float" ∨ fs.type = "monetary" then convert_float v
    else if fs.type = "boolean" then convert_boolean v
    else if fs.type = "date" then
      (match v with
       | .vstr s =>
         (match convert_date s with
          | some r => .ok (.vstr r)
          | none =>
            .error ("Cannot parse date: " ++ sq ++ pyStrip s ++ sq ++ ". Use YYYY-MM-DD format."))
       | other => .error ("Cannot convert " ++ pyTypeName other ++ " to date"))
    else if fs.type = "datetime" then
      (match v with
       | .vstr s =>
         (match convert_datetime s with
          | some r => .ok (.vstr r)
          | none =>
            .error ("Cannot parse datetime: " ++ sq ++ pyStrip s ++ sq ++
              ". Use YYYY-MM-DD HH:MM:SS format."))
       | other => .error ("Cannot convert " ++ pyTypeName other ++ " to datetime"))
    else if fs.type = "selection" then convert_selection v fs
    else if fs.type = "many2one" then convert_many2one v
    else if fs.type = "many2many" ∨ fs.type = "one2many" then convert_x2many v
    else if fs.type = "char" ∨ fs.type = "text" ∨ fs.type = "html" then .ok (.vstr (pyStr v))
    else if fs.type = "binary" then .ok v
    else .ok v

/-- One iteration of the `for field_name, value in values.items()` loop of
`validate_and_convert`: unknown field and readonly field produce errors;
otherwise the converted value is accepted or a field-scoped error recorded. -/
def vacStep (schema : ModelSchema) (acc : List (String × Val) × List String)
    (p : String × Val) : List (String × Val) × List String :=
  match alookup p.1 schema.fields with
  | none => (acc.1, acc.2 ++ ["Unknown field: " ++ p.1])
  | some fs =>
    if fs.readonly then
      (acc.1, acc.2 ++ ["Field " ++ sq ++ p.1 ++ sq ++ " is readonly"])
    else
      match convert_value p.2 fs with
      | .ok c => (aset acc.1 p.1 c, acc.2)
      | .error e => (acc.1, acc.2 ++ ["Field " ++ sq ++ p.1 ++ sq ++ ": " ++ e])

/-- `OdooValueValidator.validate_and_convert`.  The schema fetch is passed as
an `Except` value: an exception from `get_model_schema` triggers the
pass-through fallback.  The `operation == "create"` branch of the source only
logs missing required fields and does not change the result. -/
def validate_and_convert (schemaRes : Except Unit ModelSchema)
    (values : List (String × Val)) (operation : String) :
    List (String × Val) × List String :=
  match schemaRes with
  | .error _ => (values, [])
  | .ok schema => values.foldl (vacStep schema) ([], [])

/-- Raw `fields_get` attribute dict for one field, with `None`-able slots as
returned by the remote service. -/
structure FieldInfo where
  type : Option String := none
  string : Option String := none
  help : Option String := none
  required : Option Bool := none
  readonly : Option Bool := none
  selection : Option (List (String × String)) := none
  relation : Option String := none
  deriving DecidableEq

/-- `OdooSchemaCache._parse_fields`: build the field map, skipping
double-underscore internal names, with the source's `.get` defaults. -/
def parse_fields (model : String) (fields_data : List (String × FieldInfo)) (now : Nat) :
    ModelSchema :=
  { model := model
    fields := fields_data.foldl (fun acc p =>
      if p.1.startsWith "__" then acc
      else aset acc p.1
        { name := p.1
          type := p.2.type.getD "char"
          string := p.2.string.getD p.1
          help := p.2.help
          required := p.2.required.getD false
          readonly := p.2.readonly.getD false
          selection := p.2.selection
          relation := p.2.relation }) []
    loadedAt := now }

/-- `OdooSchemaCache._is_cached`: present and not expired. -/
def is_cached (cache : List (String × ModelSchema)) (model : String) (now ttl : Nat) : Bool :=
  match alookup model cache with
  | none => false
  | some s => now - s.loadedAt < ttl

/-- `OdooSchemaCache._load_model_schema`: the remote `fields_get` outcome is
the `Except` argument; on success the parsed schema is stored in the cache,
on failure the exception propagates and the cache is untouched. -/
def load_model_schema (cache : List (String × ModelSchema)) (model : String)
    (fetchRes : Except Unit (List (String × FieldInfo))) (now : Nat) :
    Except Unit ModelSchema × List (String × ModelSchema) :=
  match fetchRes with
  | .error e => (.error e, cache)
  | .ok fd =>
    let schema := parse_fields model fd now
    (.ok schema, aset cache model schema)

/-- `OdooSchemaCache.get_model_schema`: serve from the cache unless expired
or `force_reload`, else load from the remote service. -/
def get_model_schema (cache : List (String × ModelSchema)) (model : String)
    (force_reload : Bool) (now ttl : Nat)
    (fetchRes : Except Unit (List (String × FieldInfo))) :
    Except Unit ModelSchema × List (String × ModelSchema) :=
  if force_reload = false ∧ is_cached cache model now ttl then
    match alookup model cache with
    | some s => (.ok s, cache)
    | none => (.error (), cache)
  else
    load_model_schema cache model fetchRes now

/-! ### Association-list lemmas -/

theorem alookup_map_set {α : Type} (d : List (String × α)) (g f : String) (c : α)
    (hgf : g ≠ f) :
    alookup f (d.map (fun p => if p.1 = g then (g, c) else p)) = alookup f d := by
  induction d with
  | nil => rfl
  | cons p r ih =>
    by_cases hp : p.1 = g
    · simp only [List.map_cons, if_pos hp]
      show alookup f ((g, c) :: _) = _
      unfold alookup
      rw [if_neg hgf, if_neg (by rw [hp]; exact hgf), ih]
    · simp only [List.map_cons, if_neg hp]
      unfold alookup
      by_cases hf : p.1 = f
      · rw [if_pos hf, if_pos hf]
      · rw [if_neg hf, if_neg hf, ih]

theorem alookup_append_single {α : Type} (d : List (String × α)) (g f : String) (c : α)
    (hgf : g ≠ f) :
    alookup f (d ++ [(g, c)]) = alookup f d := by
  induction d with
  | nil => show alookup f [(g, c)] = none; unfold alookup; rw [if_neg hgf]; rfl
  | cons p r ih =>
    show alookup f (p :: (r ++ [(g, c)])) = _
    unfold alookup
    by_cases hf : p.1 = f
    · rw [if_pos hf, if_pos hf]
    · rw [if_neg hf, if_neg hf, ih]

theorem alookup_aset_ne {α : Type} (d : List (String × α)) (g f : String) (c : α)
    (hgf : g ≠ f) :
    alookup f (aset d g c) = alookup f d := by
  unfold aset
  split
  · exact alookup_map_set d g f c hgf
  · exact alookup_append_single d g f c hgf

/-! ### Claim C3 -/

/-- Claim C3: when the schema fetch fails, `validate_and_convert` is the
pass-through fallback: it returns the original values with no errors rather
than raising. -/
theorem c3_schema_failure_passthrough (values : List (String × Val)) (operation : String) :
    validate_and_convert (.error ()) values operation = (values, []) :=
  rfl

/-! ### Claim C1 -/

/-- The readonly error message of `validate_and_convert`. -/
def readonlyMsg (f : String) : String :=
  "Field " ++ sq ++ f ++ sq ++ " is readonly"

theorem vacStep_snd_extends (schema : ModelSchema) (acc : List (String × Val) × List String)
    (p : String × Val) : ∃ t, (vacStep schema acc p).2 = acc.2 ++ t := by
  unfold vacStep
  cases alookup p.1 schema.fields with
  | none => exact ⟨_, rfl⟩
  | some fs =>
    dsimp only
    by_cases hro : fs.readonly = true
    · rw [if_pos hro]; exact ⟨_, rfl⟩
    · rw [if_neg hro]
      cases convert_value p.2 fs with
      | ok c => exact ⟨[], (List.append_nil _).symm⟩
      | error e => exact ⟨_, rfl⟩

theorem vacStep_fst_none (schema : ModelSchema) (acc : List (String × Val) × List String)
    (p : String × Val) {f : String} {fs : FieldSchema}
    (hf : alookup f schema.fields = some fs) (hro : fs.readonly = true)
    (hacc : alookup f acc.1 = none) : alookup f (vacStep schema acc p).1 = none := by
  unfold vacStep
  cases hsl : alookup p.1 schema.fields with
  | none => exact hacc
  | some fs' =>
    dsimp only
    by_cases hro' : fs'.readonly = true
    · rw [if_pos hro']; exact hacc
    · rw [if_neg hro']
      cases convert_value p.2 fs' with
      | ok c =>
        have hne : p.1 ≠ f := by
          intro he
          rw [he, hf] at hsl
          cases hsl
          exact hro' hro
        show alookup f (aset acc.1 p.1 c) = none
        rw [alookup_aset_ne _ _ _ _ hne]
        exact hacc
      | error e => exact hacc

theorem foldl_vacStep_fst_none (schema : ModelSchema) {f : String} {fs : FieldSchema}
    (hf : alookup f schema.fields = some fs) (hro : fs.readonly = true) :
    ∀ (vs : List (String × Val)) (acc : List (String × Val) × List String),
      alookup f acc.1 = none → alookup f (vs.foldl (vacStep schema) acc).1 = none := by
  intro vs
  induction vs with
  | nil => intro acc hacc; exact hacc
  | cons p r ih =>
    intro acc hacc
    exact ih (vacStep schema acc p) (vacStep_fst_none schema acc p hf hro hacc)

theorem foldl_vacStep_snd_mono (schema : ModelSchema) :
    ∀ (vs : List (String × Val)) (acc : List (String × Val) × List String) (m : String),
      m ∈ acc.2 → m ∈ (vs.foldl (vacStep schema) acc).2 := by
  intro vs
  induction vs with
  | nil => intro acc m hm; exact hm
  | cons p r ih =>
    intro acc m hm
    apply ih
    rcases vacStep_snd_extends schema acc p with ⟨t, ht⟩
    rw [ht]
    exact List.mem_append_left _ hm

theorem foldl_vacStep_ro_error (schema : ModelSchema) {f : String} {fs : FieldSchema} {v : Val}
    (hf : alookup f schema.fields = some fs) (hro : fs.readonly = true) :
    ∀ (vs : List (String × Val)) (acc : List (String × Val) × List String),
      (f, v) ∈ vs → readonlyMsg f ∈ (vs.foldl (vacStep schema) acc).2 := by
  intro vs
  induction vs with
  | nil => intro acc hm; cases hm
  | cons p r ih =>
    intro acc hm
    cases hm with
    | head =>
      apply foldl_vacStep_snd_mono schema r
      show readonlyMsg f ∈ (vacStep schema acc (f, v)).2
      unfold vacStep
      simp only [hf]
      rw [if_pos hro]
      exact List.mem_append_right _ (List.Mem.head _)
    | tail _ hm => exact ih (vacStep schema acc p) hm

/-- Claim C1: a field that is present in a successfully-loaded schema and
marked `readonly` is never an accepted key of `validate_and_convert`, and a
readonly-violation error is recorded for it instead, for any operation. -/
theorem c1_readonly_never_accepted (schema : ModelSchema) (values : List (String × Val))
    (operation : String) (f : String) (fs : FieldSchema) (v : Val)
    (hf : alookup f schema.fields = some fs) (hro : fs.readonly = true)
    (hv : (f, v) ∈ values) :
    alookup f (validate_and_convert (.ok schema) values operation).1 = none ∧
      readonlyMsg f ∈ (validate_and_convert (.ok schema) values operation).2 := by
  constructor
  · exact foldl_vacStep_fst_none schema hf hro values ([], []) rfl
  · exact foldl_vacStep_ro_error schema hf hro values ([], []) hv

/-- A schema with a readonly field, for the C1 witness. -/
def roSchema : ModelSchema :=
  { model := "sale.order",
    fields := [( "name", { name := "name", type := "char", string := "Name" } ),
               ( "amount_total",
                 { name := "amount_total", type := "monetary", string := "Total",
                   readonly := true } )],
    loadedAt := 0 }

/-- Witness for C1: writing the readonly `amount_total` of `roSchema` is
rejected with a readonly error, for a `create` operation. -/
theorem c1_readonly_never_accepted_witness :
    alookup "amount_total" roSchema.fields =
        some { name := "amount_total", type := "monetary", string := "Total",
               readonly := true } ∧
      alookup "amount_total"
          (validate_and_convert (.ok roSchema)
            [( "name", .vstr "Acme" ), ( "amount_total", .vint 5 )] "create").1 = none ∧
      readonlyMsg "amount_total" ∈
        (validate_and_convert (.ok roSchema)
          [( "name", .vstr "Acme" ), ( "amount_total", .vint 5 )] "create").2 :=
  ⟨rfl,
   (c1_readonly_never_accepted roSchema
      [( "name", .vstr "Acme" ), ( "amount_total", .vint 5 )] "create"
      "amount_total" _ (.vint 5) rfl rfl (List.Mem.tail _ (List.Mem.head _))).1,
   (c1_readonly_never_accepted roSchema
      [( "name", .vstr "Acme" ), ( "amount_total", .vint 5 )] "create"
      "amount_total" _ (.vint 5) rfl rfl (List.Mem.tail _ (List.Mem.head _))).2⟩

/-! ### Claims C9 and C5 -/

theorem validate_single_ok (schema : ModelSchema) (f : String) (fs : FieldSchema)
    (v c : Val) (operation : String)
    (hf : alookup f schema.fields = some fs) (hro : fs.readonly = false)
    (hcv : convert_value v fs = .ok c) :
    validate_and_convert (.ok schema) [(f, v)] operation = ([(f, c)], []) := by
  show List.foldl (vacStep schema) ([], []) [(f, v)] = _
  rw [List.foldl_cons, List.foldl_nil]
  unfold vacStep
  simp only [hf]
  rw [if_neg (by rw [hro]; exact Bool.false_ne_true), hcv]
  exact rfl

/-- Claim C9 as amended: for a non-required, writable single-reference
(`many2one`) field, both Python `False` and `None` are accepted with no
error; `False` converts to the `False` empty-reference sentinel, while `None`
is accepted unchanged as null, because the global null rule of
`_convert_value` runs before the `many2one` conversion. -/
theorem c9_many2one_empty_reference (schema : ModelSchema) (f : String) (fs : FieldSchema)
    (operation : String) (hf : alookup f schema.fields = some fs)
    (hro : fs.readonly = false) (htype : fs.type = "many2one") (hreq : fs.required = false) :
    validate_and_convert (.ok schema) [(f, .vbool false)] operation = ([(f, .vbool false)], []) ∧
      validate_and_convert (.ok schema) [(f, .vnone)] operation = ([(f, .vnone)], []) := by
  constructor
  · apply validate_single_ok schema f fs _ _ _ hf hro
    unfold convert_value
    simp [htype, convert_many2one]
  · apply validate_single_ok schema f fs _ _ _ hf hro
    unfold convert_value
    simp [hreq]

/-- A schema with a plain non-required `many2one` field. -/
def m2oSchema : ModelSchema :=
  { model := "sale.order",
    fields := [( "partner_id",
                 { name := "partner_id", type := "many2one", string := "Customer",
                   relation := some "res.partner" } )],
    loadedAt := 0 }

/-- Counterexample to C9 as stated: `None` for a non-required `many2one`
field is accepted, but the accepted value is null itself, not the `False`
empty-reference sentinel the claim requires for both inputs. -/
theorem c9_counterexample :
    validate_and_convert (.ok m2oSchema) [( "partner_id", .vnone )] "write" =
        ([( "partner_id", .vnone )], []) ∧
      Val.vnone ≠ Val.vbool false :=
  ⟨rfl, fun h => Val.noConfusion h⟩

/-- Witness for the amended C9 on `m2oSchema`. -/
theorem c9_many2one_empty_reference_witness :
    validate_and_convert (.ok m2oSchema) [( "partner_id", .vbool false )] "write" =
        ([( "partner_id", .vbool false )], []) ∧
      validate_and_convert (.ok m2oSchema) [( "partner_id", .vnone )] "write" =
        ([( "partner_id", .vnone )], []) :=
  c9_many2one_empty_reference m2oSchema "partner_id" _ "write" rfl rfl rfl rfl

/-- Claim C5 as amended: when the trimmed string value matches no raw choice
value exactly nor case-insensitively, and the label map derived from the
choice list (first-occurrence key order, last label winning per raw value)
has a first entry whose label matches case-insensitively, the value is
accepted and converted to that entry's raw value. -/
theorem c5_selection_label_match (schema : ModelSchema) (f : String) (fs : FieldSchema)
    (v r l : String) (operation : String)
    (hf : alookup f schema.fields = some fs) (hro : fs.readonly = false)
    (htype : fs.type = "selection")
    (hne : (get_selection_values fs).isEmpty = false)
    (hraw : (get_selection_values fs).contains (pyStrip v) = false)
    (hci : (get_selection_values fs).find? (fun a => pyLower a = pyLower (pyStrip v)) = none)
    (hlab : (get_selection_labels fs).find?
        (fun p => pyLower p.2 = pyLower (pyStrip v)) = some (r, l)) :
    validate_and_convert (.ok schema) [(f, .vstr v)] operation = ([(f, .vstr r)], []) := by
  apply validate_single_ok schema f fs _ _ _ hf hro
  have hdis : convert_value (.vstr v) fs = convert_selection (.vstr v) fs := by
    unfold convert_value
    simp [htype]
  rw [hdis]
  unfold convert_selection
  have hv : pyStrip (pyStr (.vstr v)) = pyStrip v := rfl
  simp only [hv, hne, hraw, hci, hlab]
  rfl

/-- A schema whose `state` selection has labels that differ from the raw
values, so the label-fallback stage is reachable. -/
def labSchema : ModelSchema :=
  { model := "sale.order",
    fields := [( "state",
                 { name := "state", type := "selection", string := "Status",
                   selection := some [( "draft", "Draft" ), ( "sale", "Sales Order" ),
                                      ( "done", "Locked" )] } )],
    loadedAt := 0 }

/-- Witness for the amended C5: `"locked"` matches only the label of
`("done", "Locked")` and is converted to the raw value `"done"`. -/
theorem c5_selection_label_match_witness :
    validate_and_convert (.ok labSchema) [( "state", .vstr "locked" )] "write" =
      ([( "state", .vstr "done" )], []) :=
  c5_selection_label_match labSchema "state" _ "locked" "done" "Locked" "write"
    rfl rfl rfl rfl rfl rfl rfl

/-- The choice list of the C5 counterexample: the value `"b"` is a raw value
of one pair, and simultaneously the case-insensitive label of the other. -/
def ambSel : List (String × String) := [( "a", "B" ), ( "b", "X" )]

/-- A schema carrying `ambSel` on its `state` field. -/
def ambSchema : ModelSchema :=
  { model := "purchase.order",
    fields := [( "state",
                 { name := "state", type := "selection", string := "Status",
                   selection := some ambSel } )],
    loadedAt := 0 }

/-- Counterexample to C5 as stated: `("a", "B")` is a pair of the choice list
whose label matches `"b"` case-insensitively, so the claim requires the
conversion to produce `"a"`; but the exact raw-value match `"b"` takes
precedence and the accepted value is `"b"`. -/
theorem c5_counterexample :
    ( "a", "B" ) ∈ ambSel ∧ pyLower "B" = pyLower "b" ∧
      validate_and_convert (.ok ambSchema) [( "state", .vstr "b" )] "write" =
        ([( "state", .vstr "b" )], []) ∧
      Val.vstr "b" ≠ Val.vstr "a" :=
  ⟨List.Mem.head _, rfl, rfl, fun h => absurd (Val.vstr.inj h) (by decide)⟩

/-! ### Claim C8 -/

/-- Claim C8: when the remote metadata fetch performed inside
`get_model_schema` fails, the failure propagates to the caller and the cache
is left exactly unchanged — nothing is stored or replaced. -/
theorem c8_fetch_failure_cache_unchanged (cache : List (String × ModelSchema))
    (model : String) (force_reload : Bool) (now ttl : Nat)
    (h : force_reload = true ∨ is_cached cache model now ttl = false) :
    get_model_schema cache model force_reload now ttl (.error ()) = (.error (), cache) := by
  unfold get_model_schema
  rw [if_neg]
  · rfl
  · rintro ⟨h1, h2⟩
    rcases h with h | h
    · rw [h] at h1; cases h1
    · rw [h] at h2; cases h2

/-- Witness for C8 on an empty cache (a cache miss, so the fetch runs and
fails). -/
theorem c8_fetch_failure_cache_unchanged_witness :
    is_cached [] "sale.order" 0 3600 = false ∧
      get_model_schema [] "sale.order" false 0 3600 (.error ()) = (.error (), []) :=
  ⟨rfl, c8_fetch_failure_cache_unchanged [] "sale.order" false 0 3600 (Or.inr rfl)⟩

end OdooMcp

namespace OdooMcp

/-! ## Claim C4: date-format invariance of `_convert_date` -/

theorem digitChar48_val (n : Nat) : (digitChar48 n).toNat = 48 + n % 10 := by
  have h : n % 10 < 10 := Nat.mod_lt _ (by norm_num)
  unfold digitChar48
  set k := n % 10 with hk
  clear_value k
  interval_cases k <;> decide

theorem digitVal_digitChar48 (n : Nat) : digitVal (digitChar48 n) = some (n % 10) := by
  have h : n % 10 < 10 := Nat.mod_lt _ (by norm_num)
  unfold digitVal
  rw [digitChar48_val]
  rw [if_pos (by omega)]
  congr 1
  omega

theorem digitChar48_ne (c : Char) (hc : digitVal c = none) (n : Nat) : digitChar48 n ≠ c := by
  intro h
  rw [← h, digitVal_digitChar48] at hc
  cases hc

theorem pad2_eq (n : Nat) : pad2 n = digitChar48 (n / 10) :: digitChar48 n :: [] := rfl

theorem numCands_pad2_full (lo2 hi2 lo1 : Nat) (sp : Bool) (n : Nat) (r : List Char)
    (hn : n ≤ 99) :
    numCands lo2 hi2 lo1 sp (pad2 n ++ r) =
      (if lo2 ≤ n ∧ n ≤ hi2 then [(n, r)] else []) ++
        (if lo1 ≤ n / 10 % 10 then [(n / 10 % 10, digitChar48 n :: r)] else []) := by
  show numCands lo2 hi2 lo1 sp (digitChar48 (n / 10) :: digitChar48 n :: r) = _
  unfold numCands
  simp only [digitVal_digitChar48]
  have hv : 10 * (n / 10 % 10) + n % 10 = n := by omega
  rw [hv]
  have hsp : (if sp = true ∧ digitChar48 (n / 10) = ' ' then
      (if 1 ≤ n % 10 then [(n % 10, r)] else []) else []) = [] := by
    rw [if_neg]
    rintro ⟨-, h⟩
    exact digitChar48_ne ' ' (by decide) _ h
  rw [hsp, List.append_nil]

theorem numCands_pad2_in (lo2 hi2 lo1 : Nat) (sp : Bool) (n : Nat) (r : List Char)
    (hn : n ≤ 99) (h1 : lo2 ≤ n) (h2 : n ≤ hi2) :
    numCands lo2 hi2 lo1 sp (pad2 n ++ r) =
      (n, r) :: (if lo1 ≤ n / 10 % 10 then [(n / 10 % 10, digitChar48 n :: r)] else []) := by
  rw [numCands_pad2_full _ _ _ _ _ _ hn, if_pos ⟨h1, h2⟩, List.singleton_append]

theorem numCands_pad2_out (lo2 hi2 lo1 : Nat) (sp : Bool) (n : Nat) (r : List Char)
    (hn : n ≤ 99) (hout : ¬(lo2 ≤ n ∧ n ≤ hi2)) :
    numCands lo2 hi2 lo1 sp (pad2 n ++ r) =
      (if lo1 ≤ n / 10 % 10 then [(n / 10 % 10, digitChar48 n :: r)] else []) := by
  rw [numCands_pad2_full _ _ _ _ _ _ hn, if_neg hout, List.nil_append]

theorem pad4_eq (y : Nat) :
    pad4 y = digitChar48 (y / 1000) :: digitChar48 (y / 100) ::
      digitChar48 (y / 10) :: digitChar48 y :: [] := rfl

theorem tokCands_Y4_pad4 (y : Nat) (r : List Char) (hy : y ≤ 9999) :
    tokCands .Y4 (pad4 y ++ r) = [(y, r)] := by
  show tokCands .Y4 (digitChar48 (y / 1000) :: digitChar48 (y / 100) ::
    digitChar48 (y / 10) :: digitChar48 y :: r) = _
  unfold tokCands
  simp only [digitVal_digitChar48]
  have hv : ((y / 1000 % 10 * 10 + y / 100 % 10) * 10 + y / 10 % 10) * 10 + y % 10 = y := by
    omega
  rw [hv]

theorem tokCands_Y4_fail (c1 c2 c3 : Char) (r : List Char) (h : digitVal c3 = none) :
    tokCands .Y4 (c1 :: c2 :: c3 :: r) = [] := by
  cases r with
  | nil => rfl
  | cons c4 r' =>
    cases h1 : digitVal c1 <;> cases h2 : digitVal c2 <;> cases h4 : digitVal c4 <;>
      simp [tokCands, h1, h2, h4, h]

theorem runToks_nil (s : List Char) : runToks [] s = [([], s)] := rfl

theorem tokCands_lit (c c' : Char) (r : List Char) :
    tokCands (.lit c) (c' :: r) = if c' = c then [(0, r)] else [] := rfl

theorem runToks_lit_mismatch (c c' : Char) (ts : List Tok) (r : List Char) (h : c' ≠ c) :
    runToks (.lit c :: ts) (c' :: r) = [] := by
  show (tokCands (.lit c) (c' :: r)).flatMap _ = []
  rw [tokCands_lit, if_neg h]
  rfl

theorem runToks_cons_head (t : Tok) (ts : List Tok) (s : List Char)
    (v : Nat) (s2 : List Char) (rest : List (Nat × List Char))
    (hc : tokCands t s = (v, s2) :: rest)
    (fields : List (Tok × Nat)) (r : List Char) (tl : List (List (Tok × Nat) × List Char))
    (hrec : runToks ts s2 = (fields, r) :: tl) :
    ∃ t2, runToks (t :: ts) s = ((t, v) :: fields, r) :: t2 := by
  refine ⟨(tl.map fun q => ((t, v) :: q.1, q.2)) ++
      rest.flatMap (fun p => (runToks ts p.2).map fun q => ((t, p.1) :: q.1, q.2)), ?_⟩
  show (tokCands t s).flatMap _ = _
  rw [hc, List.flatMap_cons, hrec, List.map_cons, List.cons_append]

theorem tokCands_lit_match (c : Char) (r : List Char) :
    tokCands (.lit c) (c :: r) = (0, r) :: [] := by
  rw [tokCands_lit, if_pos rfl]

theorem strptime1_of_run_nil (fmt : List Tok) (s : List Char)
    (h : runToks fmt s = []) : strptime1 fmt s = none := by
  unfold strptime1
  rw [h]
  rfl

theorem strptime1_of_head_rest (fmt : List Tok) (s : List Char)
    (fields : List (Tok × Nat)) (r : List Char) (t : List (List (Tok × Nat) × List Char))
    (hr : runToks fmt s = (fields, r) :: t) (hne : r ≠ []) :
    strptime1 fmt s = none := by
  unfold strptime1
  rw [hr]
  simp only [List.head?_cons]
  rw [if_neg hne]

end OdooMcp

namespace OdooMcp

theorem days_in_month_le (y m : Nat) : days_in_month y m ≤ 31 := by
  unfold days_in_month
  split
  · split <;> norm_num
  · split <;> norm_num

theorem run_iso (y m d : Nat) (r : List Char)
    (hy2 : y ≤ 9999) (hm : 1 ≤ m) (hm2 : m ≤ 12) (hd : 1 ≤ d) (hd2 : d ≤ 31) :
    ∃ t, runToks fmtISO (pad4 y ++ '-' :: (pad2 m ++ '-' :: (pad2 d ++ r))) =
      ([(Tok.Y4, y), (.lit '-', 0), (.Mo, m), (.lit '-', 0), (.Da, d)], r) :: t := by
  obtain ⟨t1, h1⟩ := runToks_cons_head .Da [] (pad2 d ++ r) d r _
    (numCands_pad2_in 1 31 1 true d r (by omega) hd hd2) [] r [] (runToks_nil r)
  obtain ⟨t2, h2⟩ := runToks_cons_head (.lit '-') [.Da] ('-' :: (pad2 d ++ r)) 0 (pad2 d ++ r) []
    (tokCands_lit_match '-' _) _ r t1 h1
  obtain ⟨t3, h3⟩ := runToks_cons_head .Mo [.lit '-', .Da] (pad2 m ++ '-' :: (pad2 d ++ r)) m _ _
    (numCands_pad2_in 1 12 1 false m ('-' :: (pad2 d ++ r)) (by omega) hm hm2) _ r t2 h2
  obtain ⟨t4, h4⟩ := runToks_cons_head (.lit '-') [.Mo, .lit '-', .Da]
    ('-' :: (pad2 m ++ '-' :: (pad2 d ++ r))) 0 _ [] (tokCands_lit_match '-' _) _ r t3 h3
  obtain ⟨t5, h5⟩ := runToks_cons_head .Y4 [.lit '-', .Mo, .lit '-', .Da]
    (pad4 y ++ '-' :: (pad2 m ++ '-' :: (pad2 d ++ r))) y _ []
    (tokCands_Y4_pad4 y ('-' :: (pad2 m ++ '-' :: (pad2 d ++ r))) hy2) _ r t4 h4
  exact ⟨t5, h5⟩

theorem run_dmy (sep : Char) (y m d : Nat) (r : List Char)
    (hy2 : y ≤ 9999) (hm : 1 ≤ m) (hm2 : m ≤ 12) (hd : 1 ≤ d) (hd2 : d ≤ 31) :
    ∃ t, runToks [.Da, .lit sep, .Mo, .lit sep, .Y4]
        (pad2 d ++ sep :: (pad2 m ++ sep :: (pad4 y ++ r))) =
      ([(Tok.Da, d), (.lit sep, 0), (.Mo, m), (.lit sep, 0), (.Y4, y)], r) :: t := by
  obtain ⟨t1, h1⟩ := runToks_cons_head .Y4 [] (pad4 y ++ r) y r []
    (tokCands_Y4_pad4 y r hy2) [] r [] (runToks_nil r)
  obtain ⟨t2, h2⟩ := runToks_cons_head (.lit sep) [.Y4] (sep :: (pad4 y ++ r)) 0 (pad4 y ++ r) []
    (tokCands_lit_match sep _) _ r t1 h1
  obtain ⟨t3, h3⟩ := runToks_cons_head .Mo [.lit sep, .Y4] (pad2 m ++ sep :: (pad4 y ++ r)) m _ _
    (numCands_pad2_in 1 12 1 false m (sep :: (pad4 y ++ r)) (by omega) hm hm2) _ r t2 h2
  obtain ⟨t4, h4⟩ := runToks_cons_head (.lit sep) [.Mo, .lit sep, .Y4]
    (sep :: (pad2 m ++ sep :: (pad4 y ++ r))) 0 _ [] (tokCands_lit_match sep _) _ r t3 h3
  obtain ⟨t5, h5⟩ := runToks_cons_head .Da [.lit sep, .Mo, .lit sep, .Y4]
    (pad2 d ++ sep :: (pad2 m ++ sep :: (pad4 y ++ r))) d _ _
    (numCands_pad2_in 1 31 1 true d (sep :: (pad2 m ++ sep :: (pad4 y ++ r))) (by omega) hd hd2)
    _ r t4 h4
  exact ⟨t5, h5⟩

theorem run_mdy (y m d : Nat) (r : List Char)
    (hy2 : y ≤ 9999) (hm : 1 ≤ m) (hm2 : m ≤ 12) (hd : 1 ≤ d) (hd2 : d ≤ 31) :
    ∃ t, runToks fmtSlashMD (pad2 m ++ '/' :: (pad2 d ++ '/' :: (pad4 y ++ r))) =
      ([(Tok.Mo, m), (.lit '/', 0), (.Da, d), (.lit '/', 0), (.Y4, y)], r) :: t := by
  obtain ⟨t1, h1⟩ := runToks_cons_head .Y4 [] (pad4 y ++ r) y r []
    (tokCands_Y4_pad4 y r hy2) [] r [] (runToks_nil r)
  obtain ⟨t2, h2⟩ := runToks_cons_head (.lit '/') [.Y4] ('/' :: (pad4 y ++ r)) 0 (pad4 y ++ r) []
    (tokCands_lit_match '/' _) _ r t1 h1
  obtain ⟨t3, h3⟩ := runToks_cons_head .Da [.lit '/', .Y4] (pad2 d ++ '/' :: (pad4 y ++ r)) d _ _
    (numCands_pad2_in 1 31 1 true d ('/' :: (pad4 y ++ r)) (by omega) hd hd2) _ r t2 h2
  obtain ⟨t4, h4⟩ := runToks_cons_head (.lit '/') [.Da, .lit '/', .Y4]
    ('/' :: (pad2 d ++ '/' :: (pad4 y ++ r))) 0 _ [] (tokCands_lit_match '/' _) _ r t3 h3
  obtain ⟨t5, h5⟩ := runToks_cons_head .Mo [.lit '/', .Da, .lit '/', .Y4]
    (pad2 m ++ '/' :: (pad2 d ++ '/' :: (pad4 y ++ r))) m _ _
    (numCands_pad2_in 1 12 1 false m ('/' :: (pad2 d ++ '/' :: (pad4 y ++ r))) (by omega) hm hm2)
    _ r t4 h4
  exact ⟨t5, h5⟩

theorem run_isoDT (y m d hh mi se : Nat) (r : List Char)
    (hy2 : y ≤ 9999) (hm : 1 ≤ m) (hm2 : m ≤ 12) (hd : 1 ≤ d) (hd2 : d ≤ 31)
    (hhh : hh ≤ 23) (hmi : mi ≤ 59) (hse : se ≤ 59) :
    ∃ t, runToks fmtISODT
        (pad4 y ++ '-' :: (pad2 m ++ '-' :: (pad2 d ++ ' ' ::
          (pad2 hh ++ ':' :: (pad2 mi ++ ':' :: (pad2 se ++ r)))))) =
      ([(Tok.Y4, y), (.lit '-', 0), (.Mo, m), (.lit '-', 0), (.Da, d), (.lit ' ', 0),
        (.Ho, hh), (.lit ':', 0), (.Mi, mi), (.lit ':', 0), (.Se, se)], r) :: t := by
  obtain ⟨t1, h1⟩ := runToks_cons_head .Se [] (pad2 se ++ r) se r _
    (numCands_pad2_in 0 59 0 false se r (by omega) (by omega) hse) [] r [] (runToks_nil r)
  obtain ⟨t2, h2⟩ := runToks_cons_head (.lit ':') [.Se] (':' :: (pad2 se ++ r)) 0 _ []
    (tokCands_lit_match ':' _) _ r t1 h1
  obtain ⟨t3, h3⟩ := runToks_cons_head .Mi [.lit ':', .Se] (pad2 mi ++ ':' :: (pad2 se ++ r))
    mi _ _ (numCands_pad2_in 0 59 0 false mi (':' :: (pad2 se ++ r)) (by omega) (by omega) hmi)
    _ r t2 h2
  obtain ⟨t4, h4⟩ := runToks_cons_head (.lit ':') [.Mi, .lit ':', .Se]
    (':' :: (pad2 mi ++ ':' :: (pad2 se ++ r))) 0 _ [] (tokCands_lit_match ':' _) _ r t3 h3
  obtain ⟨t5, h5⟩ := runToks_cons_head .Ho [.lit ':', .Mi, .lit ':', .Se]
    (pad2 hh ++ ':' :: (pad2 mi ++ ':' :: (pad2 se ++ r))) hh _ _
    (numCands_pad2_in 0 23 0 false hh (':' :: (pad2 mi ++ ':' :: (pad2 se ++ r)))
      (by omega) (by omega) hhh) _ r t4 h4
  obtain ⟨t6, h6⟩ := runToks_cons_head (.lit ' ') [.Ho, .lit ':', .Mi, .lit ':', .Se]
    (' ' :: (pad2 hh ++ ':' :: (pad2 mi ++ ':' :: (pad2 se ++ r)))) 0 _ []
    (tokCands_lit_match ' ' _) _ r t5 h5
  obtain ⟨t7, h7⟩ := runToks_cons_head .Da [.lit ' ', .Ho, .lit ':', .Mi, .lit ':', .Se]
    (pad2 d ++ ' ' :: (pad2 hh ++ ':' :: (pad2 mi ++ ':' :: (pad2 se ++ r)))) d _ _
    (numCands_pad2_in 1 31 1 true d
      (' ' :: (pad2 hh ++ ':' :: (pad2 mi ++ ':' :: (pad2 se ++ r)))) (by omega) hd hd2)
    _ r t6 h6
  obtain ⟨t8, h8⟩ := runToks_cons_head (.lit '-') [.Da, .lit ' ', .Ho, .lit ':', .Mi, .lit ':', .Se]
    ('-' :: (pad2 d ++ ' ' :: (pad2 hh ++ ':' :: (pad2 mi ++ ':' :: (pad2 se ++ r))))) 0 _ []
    (tokCands_lit_match '-' _) _ r t7 h7
  obtain ⟨t9, h9⟩ := runToks_cons_head .Mo
    [.lit '-', .Da, .lit ' ', .Ho, .lit ':', .Mi, .lit ':', .Se]
    (pad2 m ++ '-' :: (pad2 d ++ ' ' :: (pad2 hh ++ ':' :: (pad2 mi ++ ':' :: (pad2 se ++ r)))))
    m _ _
    (numCands_pad2_in 1 12 1 false m
      ('-' :: (pad2 d ++ ' ' :: (pad2 hh ++ ':' :: (pad2 mi ++ ':' :: (pad2 se ++ r)))))
      (by omega) hm hm2) _ r t8 h8
  obtain ⟨t10, h10⟩ := runToks_cons_head (.lit '-')
    [.Mo, .lit '-', .Da, .lit ' ', .Ho, .lit ':', .Mi, .lit ':', .Se]
    ('-' :: (pad2 m ++ '-' :: (pad2 d ++ ' ' ::
      (pad2 hh ++ ':' :: (pad2 mi ++ ':' :: (pad2 se ++ r)))))) 0 _ []
    (tokCands_lit_match '-' _) _ r t9 h9
  obtain ⟨t11, h11⟩ := runToks_cons_head .Y4
    [.lit '-', .Mo, .lit '-', .Da, .lit ' ', .Ho, .lit ':', .Mi, .lit ':', .Se]
    (pad4 y ++ '-' :: (pad2 m ++ '-' :: (pad2 d ++ ' ' ::
      (pad2 hh ++ ':' :: (pad2 mi ++ ':' :: (pad2 se ++ r)))))) y _ []
    (tokCands_Y4_pad4 y _ hy2) _ r t10 h10
  exact ⟨t11, h11⟩

end OdooMcp

namespace OdooMcp

theorem run_iso_fail (c1 c2 c3 : Char) (r : List Char) (h : digitVal c3 = none) :
    runToks fmtISO (c1 :: c2 :: c3 :: r) = [] := by
  show (tokCands .Y4 (c1 :: c2 :: c3 :: r)).flatMap _ = []
  rw [tokCands_Y4_fail c1 c2 c3 r h]
  rfl

theorem numCands_digits_rest (lo2 hi2 lo1 : Nat) (sp : Bool) (a b : Nat) (r : List Char) :
    ∀ p ∈ numCands lo2 hi2 lo1 sp (digitChar48 a :: digitChar48 b :: r),
      p.2 = r ∨ p.2 = digitChar48 b :: r := by
  intro p hp
  unfold numCands at hp
  simp only [digitVal_digitChar48] at hp
  rcases List.mem_append.mp hp with hp1 | hp2
  · rcases List.mem_append.mp hp1 with hpa | hpb
    · split at hpa
      · cases hpa with
        | head => exact Or.inl rfl
        | tail _ h => cases h
      · cases hpa
    · split at hpb
      · cases hpb with
        | head => exact Or.inr rfl
        | tail _ h => cases h
      · cases hpb
  · split at hp2
    · split at hp2
      · cases hp2 with
        | head => exact Or.inl rfl
        | tail _ h => cases h
      · cases hp2
    · cases hp2

theorem run_numsep_fail (tokn : Tok) (lo2 hi2 lo1 : Nat) (sp : Bool)
    (htok : ∀ s, tokCands tokn s = numCands lo2 hi2 lo1 sp s)
    (sep : Char) (ts : List Tok) (a b : Nat) (r : List Char)
    (hh : r.head? ≠ some sep) (hbsep : digitChar48 b ≠ sep) :
    runToks (tokn :: .lit sep :: ts) (digitChar48 a :: digitChar48 b :: r) = [] := by
  show (tokCands tokn _).flatMap _ = []
  rw [htok]
  rw [List.flatMap_eq_nil_iff]
  intro p hp
  rcases numCands_digits_rest lo2 hi2 lo1 sp a b r p hp with h2 | h2
  · rw [h2]
    cases r with
    | nil => rfl
    | cons c r' =>
      show (runToks (.lit sep :: ts) (c :: r')).map _ = []
      rw [runToks_lit_mismatch sep c ts r' (fun he => hh (by rw [he]; rfl))]
      rfl
  · rw [h2]
    show (runToks (.lit sep :: ts) (digitChar48 b :: r)).map _ = []
    rw [runToks_lit_mismatch sep _ ts _ hbsep]
    rfl

theorem run_slashDM_on_md_fail (y m d : Nat) (r : List Char)
    (hm : 1 ≤ m) (hm2 : m ≤ 12) (hd : 13 ≤ d) (hd2 : d ≤ 31) :
    runToks fmtSlashDM (pad2 m ++ '/' :: (pad2 d ++ '/' :: (pad4 y ++ r))) = [] := by
  show (tokCands .Da _).flatMap _ = []
  rw [show tokCands .Da (pad2 m ++ '/' :: (pad2 d ++ '/' :: (pad4 y ++ r))) =
    numCands 1 31 1 true (pad2 m ++ '/' :: (pad2 d ++ '/' :: (pad4 y ++ r))) from rfl]
  rw [numCands_pad2_in 1 31 1 true m _ (by omega) (by omega) (by omega)]
  rw [List.flatMap_eq_nil_iff]
  intro p hp
  have hmo : runToks [.Mo, .lit '/', .Y4] (pad2 d ++ '/' :: (pad4 y ++ r)) = [] := by
    show (tokCands .Mo _).flatMap _ = []
    rw [show tokCands .Mo (pad2 d ++ '/' :: (pad4 y ++ r)) =
      numCands 1 12 1 false (pad2 d ++ '/' :: (pad4 y ++ r)) from rfl]
    rw [numCands_pad2_out 1 12 1 false d _ (by omega) (by omega)]
    rw [if_pos (by omega)]
    rw [List.flatMap_eq_nil_iff]
    intro q hq
    cases hq with
    | head =>
      show (runToks (.lit '/' :: [.Y4]) (digitChar48 d :: ('/' :: (pad4 y ++ r)))).map _ = []
      rw [runToks_lit_mismatch '/' _ _ _ (digitChar48_ne '/' (by decide) d)]
      rfl
    | tail _ h => cases h
  cases hp with
  | head =>
    show (runToks (.lit '/' :: [.Mo, .lit '/', .Y4])
      ('/' :: (pad2 d ++ '/' :: (pad4 y ++ r)))).map _ = []
    have hrun : runToks (.lit '/' :: [.Mo, .lit '/', .Y4])
        ('/' :: (pad2 d ++ '/' :: (pad4 y ++ r))) = [] := by
      show (tokCands (.lit '/') _).flatMap _ = []
      rw [tokCands_lit_match]
      rw [List.flatMap_eq_nil_iff]
      intro q hq
      cases hq with
      | head =>
        show (runToks [.Mo, .lit '/', .Y4] (pad2 d ++ '/' :: (pad4 y ++ r))).map _ = []
        rw [hmo]
        rfl
      | tail _ h => cases h
    rw [hrun]
    rfl
  | tail _ hp' =>
    split at hp'
    · cases hp' with
      | head =>
        show (runToks (.lit '/' :: [.Mo, .lit '/', .Y4])
          (digitChar48 m :: ('/' :: (pad2 d ++ '/' :: (pad4 y ++ r))))).map _ = []
        rw [runToks_lit_mismatch '/' _ _ _ (digitChar48_ne '/' (by decide) m)]
        rfl
      | tail _ h => cases h
    · cases hp'

end OdooMcp

namespace OdooMcp

/-- Zero-padded rendering of a date in `%Y-%m-%d`. -/
def renderISO (y m d : Nat) : List Char := pad4 y ++ '-' :: (pad2 m ++ '-' :: pad2 d)

/-- Zero-padded rendering of a date in `%d.%m.%Y`. -/
def renderDot (y m d : Nat) : List Char := pad2 d ++ '.' :: (pad2 m ++ '.' :: pad4 y)

/-- Zero-padded rendering of a date in `%d/%m/%Y`. -/
def renderSlashDM (y m d : Nat) : List Char := pad2 d ++ '/' :: (pad2 m ++ '/' :: pad4 y)

/-- Zero-padded rendering of a date in `%m/%d/%Y`. -/
def renderSlashMD (y m d : Nat) : List Char := pad2 m ++ '/' :: (pad2 d ++ '/' :: pad4 y)

/-- Zero-padded rendering of a datetime in `%Y-%m-%d %H:%M:%S`. -/
def renderISODT (y m d hh mi se : Nat) : List Char :=
  pad4 y ++ '-' :: (pad2 m ++ '-' :: (pad2 d ++ ' ' ::
    (pad2 hh ++ ':' :: (pad2 mi ++ ':' :: pad2 se))))

/-- A calendar date with a four-digit year, as accepted by the `datetime`
constructor (`%Y` output is only guaranteed zero-padded for years ≥ 1000). -/
def ValidYMD (y m d : Nat) : Prop :=
  1000 ≤ y ∧ y ≤ 9999 ∧ 1 ≤ m ∧ m ≤ 12 ∧ 1 ≤ d ∧ d ≤ days_in_month y m

/-- The canonical `YYYY-MM-DD` output of `_convert_date`. -/
def canonDate (y m d : Nat) : String :=
  String.mk (pad4 y ++ '-' :: (pad2 m ++ '-' :: pad2 d))

theorem pySpace_digitChar48 (n : Nat) : pySpace (digitChar48 n) = false := by
  have h1 := digitChar48_ne ' ' (by decide) n
  have h2 := digitChar48_ne '\t' (by decide) n
  have h3 := digitChar48_ne '\n' (by decide) n
  have h4 := digitChar48_ne '\x0d' (by decide) n
  have h5 := digitChar48_ne '\x0b' (by decide) n
  have h6 := digitChar48_ne '\x0c' (by decide) n
  simp [pySpace, h1, h2, h3, h4, h5, h6]

theorem pyStripL_eq_self (l : List Char)
    (h1 : ∀ c, l.head? = some c → pySpace c = false)
    (h2 : ∀ c, l.getLast? = some c → pySpace c = false) :
    pyStripL l = l := by
  unfold pyStripL
  have hdrop : l.dropWhile pySpace = l := by
    cases l with
    | nil => rfl
    | cons a t =>
      rw [List.dropWhile_cons, if_neg]
      rw [h1 a rfl]
      exact Bool.false_ne_true
  rw [hdrop]
  have hrev : l.reverse.dropWhile pySpace = l.reverse := by
    cases hr : l.reverse with
    | nil => rfl
    | cons a t =>
      rw [List.dropWhile_cons, if_neg]
      have hlast : l.getLast? = some a := by
        rw [← List.head?_reverse, hr]
        rfl
      rw [h2 a hlast]
      exact Bool.false_ne_true
  rw [hrev, List.reverse_reverse]

theorem strptime_of_run (fmt : List Tok) (s : List Char) (fields : List (Tok × Nat))
    (t : List (List (Tok × Nat) × List Char)) (hr : runToks fmt s = (fields, []) :: t) :
    strptime1 fmt s =
      (if validDT ⟨fieldVal fields .Y4 1900, fieldVal fields .Mo 1, fieldVal fields .Da 1,
          fieldVal fields .Ho 0, fieldVal fields .Mi 0, fieldVal fields .Se 0⟩ = true then
        some ⟨fieldVal fields .Y4 1900, fieldVal fields .Mo 1, fieldVal fields .Da 1,
          fieldVal fields .Ho 0, fieldVal fields .Mi 0, fieldVal fields .Se 0⟩
      else none) := by
  unfold strptime1
  rw [hr]
  simp only [List.head?_cons]
  rw [if_pos trivial]

theorem validDT_of (y m d hh mi se : Nat) (h : ValidYMD y m d)
    (hhh : hh ≤ 23) (hmi : mi ≤ 59) (hse : se ≤ 59) :
    validDT ⟨y, m, d, hh, mi, se⟩ = true := by
  obtain ⟨h1, h2, h3, h4, h5, h6⟩ := h
  simp only [validDT, decide_eq_true_eq]
  exact ⟨by omega, h2, h3, h4, h5, h6, hhh, hmi, hse⟩

theorem strptime_iso_ok (y m d : Nat) (hv : ValidYMD y m d) :
    strptime1 fmtISO (renderISO y m d) = some ⟨y, m, d, 0, 0, 0⟩ := by
  obtain ⟨h1, h2, h3, h4, h5, h6⟩ := hv
  obtain ⟨t, ht⟩ := run_iso y m d [] h2 h3 h4 h5 (le_trans h6 (days_in_month_le y m))
  have hsh : renderISO y m d = pad4 y ++ '-' :: (pad2 m ++ '-' :: (pad2 d ++ [])) := by
    simp [renderISO]
  rw [hsh, strptime_of_run _ _ _ _ ht]
  show (if validDT ⟨y, m, d, 0, 0, 0⟩ = true then some (⟨y, m, d, 0, 0, 0⟩ : PDateTime)
    else none) = _
  rw [if_pos (validDT_of y m d 0 0 0 ⟨h1, h2, h3, h4, h5, h6⟩ (by omega) (by omega) (by omega))]

theorem strptime_dmy_ok (sep : Char) (y m d : Nat) (hv : ValidYMD y m d) :
    strptime1 [.Da, .lit sep, .Mo, .lit sep, .Y4]
      (pad2 d ++ sep :: (pad2 m ++ sep :: pad4 y)) = some ⟨y, m, d, 0, 0, 0⟩ := by
  obtain ⟨h1, h2, h3, h4, h5, h6⟩ := hv
  obtain ⟨t, ht⟩ := run_dmy sep y m d [] h2 h3 h4 h5 (le_trans h6 (days_in_month_le y m))
  have hsh : pad2 d ++ sep :: (pad2 m ++ sep :: pad4 y) =
      pad2 d ++ sep :: (pad2 m ++ sep :: (pad4 y ++ [])) := by
    simp
  rw [hsh, strptime_of_run _ _ _ _ ht]
  show (if validDT ⟨y, m, d, 0, 0, 0⟩ = true then some (⟨y, m, d, 0, 0, 0⟩ : PDateTime)
    else none) = _
  rw [if_pos (validDT_of y m d 0 0 0 ⟨h1, h2, h3, h4, h5, h6⟩ (by omega) (by omega) (by omega))]

theorem strptime_mdy_ok (y m d : Nat) (hv : ValidYMD y m d) :
    strptime1 fmtSlashMD (renderSlashMD y m d) = some ⟨y, m, d, 0, 0, 0⟩ := by
  obtain ⟨h1, h2, h3, h4, h5, h6⟩ := hv
  obtain ⟨t, ht⟩ := run_mdy y m d [] h2 h3 h4 h5 (le_trans h6 (days_in_month_le y m))
  have hsh : renderSlashMD y m d = pad2 m ++ '/' :: (pad2 d ++ '/' :: (pad4 y ++ [])) := by
    simp [renderSlashMD]
  rw [hsh, strptime_of_run _ _ _ _ ht]
  show (if validDT ⟨y, m, d, 0, 0, 0⟩ = true then some (⟨y, m, d, 0, 0, 0⟩ : PDateTime)
    else none) = _
  rw [if_pos (validDT_of y m d 0 0 0 ⟨h1, h2, h3, h4, h5, h6⟩ (by omega) (by omega) (by omega))]

theorem strptime_isoDT_ok (y m d hh mi se : Nat) (hv : ValidYMD y m d)
    (hhh : hh ≤ 23) (hmi : mi ≤ 59) (hse : se ≤ 59) :
    strptime1 fmtISODT (renderISODT y m d hh mi se) = some ⟨y, m, d, hh, mi, se⟩ := by
  obtain ⟨h1, h2, h3, h4, h5, h6⟩ := hv
  obtain ⟨t, ht⟩ := run_isoDT y m d hh mi se []
    h2 h3 h4 h5 (le_trans h6 (days_in_month_le y m)) hhh hmi hse
  have hsh : renderISODT y m d hh mi se =
      pad4 y ++ '-' :: (pad2 m ++ '-' :: (pad2 d ++ ' ' ::
        (pad2 hh ++ ':' :: (pad2 mi ++ ':' :: (pad2 se ++ []))))) := by
    simp [renderISODT]
  rw [hsh, strptime_of_run _ _ _ _ ht]
  show (if validDT ⟨y, m, d, hh, mi, se⟩ = true then some (⟨y, m, d, hh, mi, se⟩ : PDateTime)
    else none) = _
  rw [if_pos (validDT_of y m d hh mi se ⟨h1, h2, h3, h4, h5, h6⟩ hhh hmi hse)]

theorem tryFormats_cons_some (f : List Tok) (fmts : List (List Tok)) (s : List Char)
    (t : PDateTime) (h : strptime1 f s = some t) :
    tryFormats (f :: fmts) s = some t := by
  unfold tryFormats
  rw [h]

theorem tryFormats_cons_none (f : List Tok) (fmts : List (List Tok)) (s : List Char)
    (h : strptime1 f s = none) :
    tryFormats (f :: fmts) s = tryFormats fmts s := by
  show (match strptime1 f s with | some t => some t | none => tryFormats fmts s) = _
  rw [h]

end OdooMcp

namespace OdooMcp

theorem pyStripL_render (l : List Char) (n1 n2 : Nat) (mid : List Char)
    (hshape : l = digitChar48 n1 :: mid ++ [digitChar48 n2]) :
    pyStripL l = l := by
  subst hshape
  apply pyStripL_eq_self
  · intro c hc
    obtain rfl : digitChar48 n1 = c := Option.some.inj hc
    exact pySpace_digitChar48 n1
  · intro c hc
    rw [show digitChar48 n1 :: mid ++ [digitChar48 n2] =
      (digitChar48 n1 :: mid) ++ [digitChar48 n2] from rfl, List.getLast?_concat] at hc
    obtain rfl : digitChar48 n2 = c := Option.some.inj hc
    exact pySpace_digitChar48 n2

theorem convert_date_renderISO (y m d : Nat) (hv : ValidYMD y m d) :
    convert_date (String.mk (renderISO y m d)) = some (canonDate y m d) := by
  unfold convert_date
  rw [show (String.mk (renderISO y m d)).data = renderISO y m d from rfl]
  rw [pyStripL_render (renderISO y m d) (y / 1000) d
    [digitChar48 (y / 100), digitChar48 (y / 10), digitChar48 y, '-',
     digitChar48 (m / 10), digitChar48 m, '-', digitChar48 (d / 10)] rfl]
  rw [show DATE_FORMATS = [fmtISO, fmtDot, fmtSlashDM, fmtSlashMD, fmtISODT] from rfl]
  rw [tryFormats_cons_some _ _ _ _ (strptime_iso_ok y m d hv)]
  rfl

theorem convert_date_renderDot (y m d : Nat) (hv : ValidYMD y m d) :
    convert_date (String.mk (renderDot y m d)) = some (canonDate y m d) := by
  unfold convert_date
  rw [show (String.mk (renderDot y m d)).data = renderDot y m d from rfl]
  rw [pyStripL_render (renderDot y m d) (d / 10) y
    [digitChar48 d, '.', digitChar48 (m / 10), digitChar48 m, '.',
     digitChar48 (y / 1000), digitChar48 (y / 100), digitChar48 (y / 10)] rfl]
  rw [show DATE_FORMATS = [fmtISO, fmtDot, fmtSlashDM, fmtSlashMD, fmtISODT] from rfl]
  rw [tryFormats_cons_none _ _ _ (strptime1_of_run_nil _ _
    (show runToks fmtISO (renderDot y m d) = [] from
      run_iso_fail (digitChar48 (d / 10)) (digitChar48 d) '.' _ (by decide)))]
  rw [tryFormats_cons_some _ _ _ _
    (show strptime1 fmtDot (renderDot y m d) = some ⟨y, m, d, 0, 0, 0⟩ from
      strptime_dmy_ok '.' y m d hv)]
  rfl

theorem convert_date_renderSlashDM (y m d : Nat) (hv : ValidYMD y m d) :
    convert_date (String.mk (renderSlashDM y m d)) = some (canonDate y m d) := by
  unfold convert_date
  rw [show (String.mk (renderSlashDM y m d)).data = renderSlashDM y m d from rfl]
  rw [pyStripL_render (renderSlashDM y m d) (d / 10) y
    [digitChar48 d, '/', digitChar48 (m / 10), digitChar48 m, '/',
     digitChar48 (y / 1000), digitChar48 (y / 100), digitChar48 (y / 10)] rfl]
  rw [show DATE_FORMATS = [fmtISO, fmtDot, fmtSlashDM, fmtSlashMD, fmtISODT] from rfl]
  rw [tryFormats_cons_none _ _ _ (strptime1_of_run_nil _ _
    (show runToks fmtISO (renderSlashDM y m d) = [] from
      run_iso_fail (digitChar48 (d / 10)) (digitChar48 d) '/' _ (by decide)))]
  rw [tryFormats_cons_none _ _ _ (strptime1_of_run_nil _ _
    (show runToks fmtDot (renderSlashDM y m d) = [] from
      run_numsep_fail .Da 1 31 1 true (fun _ => rfl) '.' [.Mo, .lit '.', .Y4]
        (d / 10) d ('/' :: (pad2 m ++ '/' :: pad4 y))
        (fun he => absurd (Option.some.inj he) (by decide))
        (digitChar48_ne '.' (by decide) d)))]
  rw [tryFormats_cons_some _ _ _ _
    (show strptime1 fmtSlashDM (renderSlashDM y m d) = some ⟨y, m, d, 0, 0, 0⟩ from
      strptime_dmy_ok '/' y m d hv)]
  rfl

theorem convert_date_renderSlashMD (y m d : Nat) (hv : ValidYMD y m d) (h13 : 13 ≤ d) :
    convert_date (String.mk (renderSlashMD y m d)) = some (canonDate y m d) := by
  have hd31 : d ≤ 31 := le_trans hv.2.2.2.2.2 (days_in_month_le y m)
  unfold convert_date
  rw [show (String.mk (renderSlashMD y m d)).data = renderSlashMD y m d from rfl]
  rw [pyStripL_render (renderSlashMD y m d) (m / 10) y
    [digitChar48 m, '/', digitChar48 (d / 10), digitChar48 d, '/',
     digitChar48 (y / 1000), digitChar48 (y / 100), digitChar48 (y / 10)] rfl]
  rw [show DATE_FORMATS = [fmtISO, fmtDot, fmtSlashDM, fmtSlashMD, fmtISODT] from rfl]
  rw [tryFormats_cons_none _ _ _ (strptime1_of_run_nil _ _
    (show runToks fmtISO (renderSlashMD y m d) = [] from
      run_iso_fail (digitChar48 (m / 10)) (digitChar48 m) '/' _ (by decide)))]
  rw [tryFormats_cons_none _ _ _ (strptime1_of_run_nil _ _
    (show runToks fmtDot (renderSlashMD y m d) = [] from
      run_numsep_fail .Da 1 31 1 true (fun _ => rfl) '.' [.Mo, .lit '.', .Y4]
        (m / 10) m ('/' :: (pad2 d ++ '/' :: pad4 y))
        (fun he => absurd (Option.some.inj he) (by decide))
        (digitChar48_ne '.' (by decide) m)))]
  rw [tryFormats_cons_none _ _ _ (strptime1_of_run_nil _ _
    (show runToks fmtSlashDM (renderSlashMD y m d) = [] from
      run_slashDM_on_md_fail y m d [] hv.2.2.1 hv.2.2.2.1 h13 hd31))]
  rw [tryFormats_cons_some _ _ _ _ (strptime_mdy_ok y m d hv)]
  rfl

theorem convert_date_renderISODT (y m d hh mi se : Nat) (hv : ValidYMD y m d)
    (hhh : hh ≤ 23) (hmi : mi ≤ 59) (hse : se ≤ 59) :
    convert_date (String.mk (renderISODT y m d hh mi se)) = some (canonDate y m d) := by
  unfold convert_date
  rw [show (String.mk (renderISODT y m d hh mi se)).data = renderISODT y m d hh mi se from rfl]
  rw [pyStripL_render (renderISODT y m d hh mi se) (y / 1000) se
    [digitChar48 (y / 100), digitChar48 (y / 10), digitChar48 y, '-',
     digitChar48 (m / 10), digitChar48 m, '-', digitChar48 (d / 10), digitChar48 d, ' ',
     digitChar48 (hh / 10), digitChar48 hh, ':', digitChar48 (mi / 10), digitChar48 mi, ':',
     digitChar48 (se / 10)] rfl]
  rw [show DATE_FORMATS = [fmtISO, fmtDot, fmtSlashDM, fmtSlashMD, fmtISODT] from rfl]
  obtain ⟨h1, h2, h3, h4, h5, h6⟩ := hv
  obtain ⟨t, ht⟩ := run_iso y m d
    (' ' :: (pad2 hh ++ ':' :: (pad2 mi ++ ':' :: pad2 se)))
    h2 h3 h4 h5 (le_trans h6 (days_in_month_le y m))
  rw [tryFormats_cons_none _ _ _
    (show strptime1 fmtISO (renderISODT y m d hh mi se) = none from
      strptime1_of_head_rest _ _ _ _ _ ht (by simp))]
  rw [tryFormats_cons_none _ _ _ (strptime1_of_run_nil _ _
    (show runToks fmtDot (renderISODT y m d hh mi se) = [] from
      run_numsep_fail .Da 1 31 1 true (fun _ => rfl) '.' [.Mo, .lit '.', .Y4]
        (y / 1000) (y / 100)
        (digitChar48 (y / 10) :: digitChar48 y :: '-' :: (pad2 m ++ '-' :: (pad2 d ++ ' ' ::
          (pad2 hh ++ ':' :: (pad2 mi ++ ':' :: pad2 se)))))
        (fun he => digitChar48_ne '.' (by decide) (y / 10) (Option.some.inj he))
        (digitChar48_ne '.' (by decide) (y / 100))))]
  rw [tryFormats_cons_none _ _ _ (strptime1_of_run_nil _ _
    (show runToks fmtSlashDM (renderISODT y m d hh mi se) = [] from
      run_numsep_fail .Da 1 31 1 true (fun _ => rfl) '/' [.Mo, .lit '/', .Y4]
        (y / 1000) (y / 100)
        (digitChar48 (y / 10) :: digitChar48 y :: '-' :: (pad2 m ++ '-' :: (pad2 d ++ ' ' ::
          (pad2 hh ++ ':' :: (pad2 mi ++ ':' :: pad2 se)))))
        (fun he => digitChar48_ne '/' (by decide) (y / 10) (Option.some.inj he))
        (digitChar48_ne '/' (by decide) (y / 100))))]
  rw [tryFormats_cons_none _ _ _ (strptime1_of_run_nil _ _
    (show runToks fmtSlashMD (renderISODT y m d hh mi se) = [] from
      run_numsep_fail .Mo 1 12 1 false (fun _ => rfl) '/' [.Da, .lit '/', .Y4]
        (y / 1000) (y / 100)
        (digitChar48 (y / 10) :: digitChar48 y :: '-' :: (pad2 m ++ '-' :: (pad2 d ++ ' ' ::
          (pad2 hh ++ ':' :: (pad2 mi ++ ':' :: pad2 se)))))
        (fun he => digitChar48_ne '/' (by decide) (y / 10) (Option.some.inj he))
        (digitChar48_ne '/' (by decide) (y / 100))))]
  rw [tryFormats_cons_some _ _ _ _
    (strptime_isoDT_ok y m d hh mi se ⟨h1, h2, h3, h4, h5, h6⟩ hhh hmi hse)]
  rfl

/-- The five accepted date string formats of `DATE_FORMATS`. -/
inductive DateFmt where
  | iso
  | dot
  | slashDM
  | slashMD
  | isoDT

/-- `s` is the zero-padded rendering of the calendar date `(y, m, d)` in
format `F` (any valid time of day for the datetime format). -/
def IsRenderOf : DateFmt → Nat → Nat → Nat → List Char → Prop
  | .iso, y, m, d, s => s = renderISO y m d
  | .dot, y, m, d, s => s = renderDot y m d
  | .slashDM, y, m, d, s => s = renderSlashDM y m d
  | .slashMD, y, m, d, s => s = renderSlashMD y m d
  | .isoDT, y, m, d, s =>
    ∃ hh mi se, hh ≤ 23 ∧ mi ≤ 59 ∧ se ≤ 59 ∧ s = renderISODT y m d hh mi se

/-- The restriction the counterexample forces: a `%m/%d/%Y` rendering is only
covered when `%d/%m/%Y`, which is tried first, cannot shadow it with a
different date — that is, when the day exceeds 12 or equals the month. -/
def Unambiguous : DateFmt → Nat → Nat → Nat → Prop
  | .slashMD, _, m, d => 13 ≤ d ∨ d = m
  | _, _, _, _ => True

theorem convert_date_render (y m d : Nat) (F : DateFmt) (s : List Char)
    (hv : ValidYMD y m d) (hr : IsRenderOf F y m d s) (ha : Unambiguous F y m d) :
    convert_date (String.mk s) = some (canonDate y m d) := by
  cases F with
  | iso =>
    rw [show s = renderISO y m d from hr]
    exact convert_date_renderISO y m d hv
  | dot =>
    rw [show s = renderDot y m d from hr]
    exact convert_date_renderDot y m d hv
  | slashDM =>
    rw [show s = renderSlashDM y m d from hr]
    exact convert_date_renderSlashDM y m d hv
  | slashMD =>
    rcases (ha : 13 ≤ d ∨ d = m) with h13 | heq
    · rw [show s = renderSlashMD y m d from hr]
      exact convert_date_renderSlashMD y m d hv h13
    · subst heq
      rw [show s = renderSlashMD y d d from hr,
        show renderSlashMD y d d = renderSlashDM y d d from rfl]
      exact convert_date_renderSlashDM y d d hv
  | isoDT =>
    obtain ⟨hh, mi, se, hhh, hmi, hse, rfl⟩ := (hr :
      ∃ hh mi se, hh ≤ 23 ∧ mi ≤ 59 ∧ se ≤ 59 ∧ s = renderISODT y m d hh mi se)
    exact convert_date_renderISODT y m d hh mi se hv hhh hmi hse

/-- Claim C4 as amended: two zero-padded renderings of the same calendar date
(four-digit year) in the accepted formats are converted by `_convert_date` to
the identical canonical `YYYY-MM-DD` string — provided a `%m/%d/%Y` rendering
is only used where the earlier `%d/%m/%Y` parse cannot reinterpret it (day
greater than 12 or equal to the month). -/
theorem c4_date_format_invariance (y m d : Nat) (F1 F2 : DateFmt) (s1 s2 : List Char)
    (hv : ValidYMD y m d) (h1 : IsRenderOf F1 y m d s1) (h2 : IsRenderOf F2 y m d s2)
    (ha1 : Unambiguous F1 y m d) (ha2 : Unambiguous F2 y m d) :
    convert_date (String.mk s1) = convert_date (String.mk s2) ∧
      convert_date (String.mk s1) = some (canonDate y m d) := by
  have e1 := convert_date_render y m d F1 s1 hv h1 ha1
  have e2 := convert_date_render y m d F2 s2 hv h2 ha2
  exact ⟨e1.trans e2.symm, e1⟩

/-- Counterexample to C4 as stated: `"2025-04-03"` and `"04/03/2025"` are
renderings of April 3, 2025 in the ISO and US formats, but `_convert_date`
maps the second to March 4, 2025 because `%d/%m/%Y` is tried first. -/
theorem c4_counterexample :
    IsRenderOf .iso 2025 4 3 ("2025-04-03").data ∧
      IsRenderOf .slashMD 2025 4 3 ("04/03/2025").data ∧
      convert_date "04/03/2025" ≠ convert_date "2025-04-03" :=
  ⟨rfl, rfl, fun h => by
    rw [show convert_date "04/03/2025" = some "2025-03-04" from rfl,
      show convert_date "2025-04-03" = some "2025-04-03" from rfl] at h
    exact absurd (Option.some.inj h) (by decide)⟩

/-- Witness for the amended C4: the European dotted and ISO renderings of
November 24, 2025 convert to the same canonical string. -/
theorem c4_date_format_invariance_witness :
    ValidYMD 2025 11 24 ∧
      convert_date "24.11.2025" = convert_date "2025-11-24" ∧
      convert_date "24.11.2025" = some (canonDate 2025 11 24) :=
  ⟨by constructor <;> norm_num [days_in_month],
   (c4_date_format_invariance 2025 11 24 .dot .iso ("24.11.2025").data ("2025-11-24").data
      (by constructor <;> norm_num [days_in_month]) rfl rfl trivial trivial).1,
   (c4_date_format_invariance 2025 11 24 .dot .iso ("24.11.2025").data ("2025-11-24").data
      (by constructor <;> norm_num [days_in_month]) rfl rfl trivial trivial).2⟩

/-- A schema with a writable, non-required `integer` field. -/
def intSchema : ModelSchema :=
  { model := "sale.order",
    fields := [( "qty", { name := "qty", type := "integer", string := "Quantity" } )],
    loadedAt := 0 }

/-- Counterexample to C10 as stated: `"0.99999999999999999"` parses to the
exact decimal `99999999999999999 / 10^17`, whose truncation toward zero is
`0`; but `int(float(...))` rounds to binary64 first, which rounds this value
up to `1.0`, and the validator accepts `1`, not `0`. -/
theorem c10_counterexample :
    pyDecParse (cleanNumericString "0.99999999999999999") = some (99999999999999999, 17) ∧
      Int.tdiv 99999999999999999 (Int.ofNat (10 ^ 17)) = 0 ∧
      validate_and_convert (.ok intSchema) [( "qty", .vstr "0.99999999999999999" )] "write" =
        ([( "qty", .vint 1 )], []) ∧
      (1 : Int) ≠ 0 :=
  ⟨rfl, by decide, rfl, by decide⟩

/-- Claim C10 as amended: for every writable integer field and every string
whose cleaned form (whitespace stripped, commas and spaces removed) parses
as the decimal number `n / 10^k` — with any fractional part, not only a
trailing `.0` — `validate_and_convert` accepts the value with no error and
converts it to the truncation toward zero of the binary64 value nearest to
that decimal (round-to-nearest, ties-to-even), provided that binary64 value
is finite.  This differs from truncating the exact decimal value whenever
binary64 rounding crosses an integer boundary. -/
theorem c10_integer_from_string (schema : ModelSchema) (f : String) (fs : FieldSchema)
    (s : String) (n : Int) (k : Nat) (z : Int) (operation : String)
    (hf : alookup f schema.fields = some fs) (hro : fs.readonly = false)
    (htype : fs.type = "integer")
    (hp : pyDecParse (cleanNumericString s) = some (n, k))
    (hz : b64TruncDec n k = some z) :
    validate_and_convert (.ok schema) [(f, .vstr s)] operation = ([(f, .vint z)], []) := by
  apply validate_single_ok schema f fs _ _ _ hf hro
  unfold convert_value
  simp only [htype, if_pos]
  unfold convert_integer
  simp only [hp, hz]

/-- Witness for the amended C10: `" 1,100.9 "` cleans to `"1100.9"`, parses
to `11009 / 10`, and converts to `1100`. -/
theorem c10_integer_from_string_witness :
    pyDecParse (cleanNumericString " 1,100.9 ") = some (11009, 1) ∧
      b64TruncDec 11009 1 = some 1100 ∧
      validate_and_convert (.ok intSchema) [( "qty", .vstr " 1,100.9 " )] "write" =
        ([( "qty", .vint 1100 )], []) :=
  ⟨rfl, by decide,
    c10_integer_from_string intSchema "qty" _ " 1,100.9 " 11009 1 1100 "write"
      rfl rfl rfl rfl (by decide)⟩

end OdooMcp
